import Mathlib

/-!
# Verification of the transaction-ingestion pipeline

A shallow embedding, in Lean 4, of the CSV transaction importer
(`portfolio.transaction_importer`): the value parsers (`parse_date`,
`parse_decimal`), the transaction-type standardizer and its broker mapping
store, the option symbol/description parser, the per-row importer, the
staging-grid edit/validation model, the batch persistence routine and the
column-mapping heuristics.  Python `Decimal` values are modelled as exact
rationals (`ℚ`); the non-finite special values (`NaN`, `Infinity`) accepted
by the `Decimal` constructor lie outside this model and are noted where
relevant.  Python strings are modelled as Lean `String`s, with the ASCII
case conversions and whitespace set used by the data the importer handles.
-/

/-! ## Python string primitives -/

/-- Python whitespace characters stripped by `str.strip()` (ASCII subset). -/
def isPyWs (c : Char) : Bool :=
  c = ' ' || c = '\t' || c = '\n' || c = '\r' || c = '\x0b' || c = '\x0c'

/-- ASCII lower-casing of one character, as `str.lower()` acts on ASCII. -/
def pyLowerChar (c : Char) : Char :=
  if 'A' ≤ c ∧ c ≤ 'Z' then Char.ofNat (c.toNat + 32) else c

/-- ASCII upper-casing of one character, as `str.upper()` acts on ASCII. -/
def pyUpperChar (c : Char) : Char :=
  if 'a' ≤ c ∧ c ≤ 'z' then Char.ofNat (c.toNat - 32) else c

def pyLower (s : String) : String := ⟨s.data.map pyLowerChar⟩

def pyUpper (s : String) : String := ⟨s.data.map pyUpperChar⟩

/-- `str.strip()` on a character list: drop whitespace from both ends. -/
def stripChars (cs : List Char) : List Char :=
  ((cs.dropWhile isPyWs).reverse.dropWhile isPyWs).reverse

def pyStrip (s : String) : String := ⟨stripChars s.data⟩

/-- Boolean prefix test on character lists. -/
def isPrefixB : List Char → List Char → Bool
  | [], _ => true
  | _ :: _, [] => false
  | a :: as, b :: bs => a = b && isPrefixB as bs

/-- Boolean substring test: Python `needle in hay`. -/
def substrB (n : List Char) : List Char → Bool
  | [] => isPrefixB n []
  | c :: t => isPrefixB n (c :: t) || substrB n t

/-- Python `needle in hay` on strings. -/
def sIn (needle hay : String) : Bool := substrB needle.data hay.data

/-- Numeric value of a digit run, most significant first (digits assumed). -/
def digitsVal : List Char → Nat → Nat
  | [], acc => acc
  | c :: cs, acc => digitsVal cs (10 * acc + (c.toNat - 48))

def strToNat (cs : List Char) : Nat := digitsVal cs 0

/-- Helper for `pySplitWs`: accumulates the current word reversed. -/
def pySplitWsAux : List Char → List Char → List (List Char)
  | [], cur => if cur.isEmpty then [] else [cur.reverse]
  | c :: t, cur =>
    if isPyWs c then
      if cur.isEmpty then pySplitWsAux t [] else cur.reverse :: pySplitWsAux t []
    else pySplitWsAux t (c :: cur)

/-- Python `str.split()` with no argument: split on whitespace runs,
dropping empty pieces. -/
def pySplitWs (cs : List Char) : List (List Char) := pySplitWsAux cs []

/-! ## Python `Decimal` string parsing

`Decimal(str)` strips surrounding whitespace and every underscore, then
accepts `sign? (digits [. digits?] | . digits) ([eE] sign? digits)?`.
The non-finite forms (`NaN`, `Infinity`, ...) are outside the rational
model and are not represented. -/

/-- Exponent application on rationals: value × 10^e with e : ℤ. -/
def applyExp (q : ℚ) (e : ℤ) : ℚ :=
  if 0 ≤ e then q * (10 : ℚ) ^ e.toNat else q / (10 : ℚ) ^ (-e).toNat

/-- Parse the digit tail of a decimal literal after the optional sign:
integer digits, optional fraction, optional exponent.  Returns the
(non-negative) value. -/
def pyDecimalTail (cs : List Char) : Option ℚ :=
  let ipart := cs.takeWhile Char.isDigit
  let rest := cs.dropWhile Char.isDigit
  match rest with
  | '.' :: r2 =>
    let fpart := r2.takeWhile Char.isDigit
    let r3 := r2.dropWhile Char.isDigit
    if ipart.isEmpty ∧ fpart.isEmpty then none
    else
      let base : ℚ := (strToNat ipart : ℚ) + (strToNat fpart : ℚ) / (10 : ℚ) ^ fpart.length
      match r3 with
      | [] => some base
      | e :: r4 =>
        if e = 'e' ∨ e = 'E' then
          match r4 with
          | '+' :: r5 =>
            if r5.isEmpty ∨ ¬ r5.all Char.isDigit then none
            else some (applyExp base (strToNat r5))
          | '-' :: r5 =>
            if r5.isEmpty ∨ ¬ r5.all Char.isDigit then none
            else some (applyExp base (-(strToNat r5 : ℤ)))
          | r5 =>
            if r5.isEmpty ∨ ¬ r5.all Char.isDigit then none
            else some (applyExp base (strToNat r5))
        else none
  | [] => if ipart.isEmpty then none else some (strToNat ipart)
  | e :: r4 =>
    if ipart.isEmpty then none
    else if e = 'e' ∨ e = 'E' then
      let base : ℚ := (strToNat ipart : ℚ)
      match r4 with
      | '+' :: r5 =>
        if r5.isEmpty ∨ ¬ r5.all Char.isDigit then none
        else some (applyExp base (strToNat r5))
      | '-' :: r5 =>
        if r5.isEmpty ∨ ¬ r5.all Char.isDigit then none
        else some (applyExp base (-(strToNat r5 : ℤ)))
      | r5 =>
        if r5.isEmpty ∨ ¬ r5.all Char.isDigit then none
        else some (applyExp base (strToNat r5))
    else none

/-- Model of Python `Decimal(value)` on a string, restricted to finite
values: whitespace and underscores removed, optional sign, then the digit
tail. -/
def pyDecimal (s : String) : Option ℚ :=
  let cs := (stripChars s.data).filter (fun c => c ≠ '_')
  match cs with
  | '+' :: t => pyDecimalTail t
  | '-' :: t => (pyDecimalTail t).map Neg.neg
  | t => pyDecimalTail t

/-- `parsers.parse_decimal`: empty or whitespace-only input gives `None`;
otherwise `'$'`, `'€'` and `','` are removed, the result stripped and fed
to `Decimal`. -/
def parse_decimal (value_str : String) : Option ℚ :=
  if value_str = "" ∨ pyStrip value_str = "" then none
  else
    let cleaned := ⟨(value_str.data.filter
      (fun c => c ≠ '$' ∧ c ≠ '€' ∧ c ≠ ','))⟩
    pyDecimal (pyStrip cleaned)

/-- The decimal digit character for `k < 10`. -/
def digitChar (k : Nat) : Char := Char.ofNat (48 + k)

/-- Fueled digit rendering; any fuel above the number works. -/
def natDigitsAux (fuel : Nat) (n : Nat) : List Char :=
  match fuel with
  | 0 => []
  | fuel + 1 =>
    if n < 10 then [digitChar n]
    else natDigitsAux fuel (n / 10) ++ [digitChar (n % 10)]

/-- The base-10 digit rendering of a natural number, most significant
digit first. -/
def natDigits (n : Nat) : List Char := natDigitsAux (n + 1) n

/-! ## Dates and `parse_date`

`datetime.strptime` with the four fixed formats `%Y-%m-%d`, `%m/%d/%Y`,
`%d/%m/%Y`, `%d-%m-%Y`.  `%Y` requires exactly four digits; `%m` and `%d`
accept one or two digits within range; the whole string must be consumed
and the resulting calendar date must be valid (year at least 1), else the
format fails.  Because every strptime token here is a digit run followed
by a literal separator or end of input, regex backtracking coincides with
taking maximal digit runs. -/

structure DateT where
  year : Nat
  month : Nat
  day : Nat
deriving DecidableEq, Repr

def isLeap (y : Nat) : Bool := y % 4 = 0 && (y % 100 ≠ 0 || y % 400 = 0)

def daysInMonth (y m : Nat) : Nat :=
  if m = 2 then (if isLeap y then 29 else 28)
  else if m = 4 ∨ m = 6 ∨ m = 9 ∨ m = 11 then 30
  else 31

/-- `datetime.date(y, m, d)`: `None` models the `ValueError` on an invalid
calendar date. -/
def mkValidDate (y m d : Nat) : Option DateT :=
  if 1 ≤ y ∧ y ≤ 9999 ∧ 1 ≤ m ∧ m ≤ 12 ∧ 1 ≤ d ∧ d ≤ daysInMonth y m then
    some ⟨y, m, d⟩
  else none

/-- Split `cs` as `digits sep digits sep digits` (maximal digit runs,
whole input consumed), the shared shape of all four strptime formats. -/
def splitDateParts (sep : Char) (cs : List Char) :
    Option (List Char × List Char × List Char) :=
  let a := cs.takeWhile Char.isDigit
  match cs.dropWhile Char.isDigit with
  | c1 :: r2 =>
    if c1 = sep then
      let b := r2.takeWhile Char.isDigit
      match r2.dropWhile Char.isDigit with
      | c2 :: r4 =>
        if c2 = sep then
          let c := r4.takeWhile Char.isDigit
          match r4.dropWhile Char.isDigit with
          | [] => some (a, b, c)
          | _ :: _ => none
        else none
      | [] => none
    else none
  | [] => none

/-- `%m` digit run: one or two digits with value 1..12 (strptime pattern
`1[0-2]|0[1-9]|[1-9]`). -/
def monthRunOk (cs : List Char) : Bool :=
  !cs.isEmpty && cs.length ≤ 2 && 1 ≤ strToNat cs && strToNat cs ≤ 12

/-- `%d` digit run: one or two digits with value 1..31 (strptime pattern
`3[01]|[12][0-9]|0[1-9]|[1-9]`). -/
def dayRunOk (cs : List Char) : Bool :=
  !cs.isEmpty && cs.length ≤ 2 && 1 ≤ strToNat cs && strToNat cs ≤ 31

/-- `%Y` digit run: exactly four digits. -/
def yearRunOk (cs : List Char) : Bool := cs.length = 4

/-- `strptime(s, "%Y-%m-%d").date()`. -/
def strptimeYmd (cs : List Char) : Option DateT :=
  match splitDateParts '-' cs with
  | none => none
  | some (a, b, c) =>
    if yearRunOk a && monthRunOk b && dayRunOk c then
      mkValidDate (strToNat a) (strToNat b) (strToNat c)
    else none

/-- `strptime(s, "%m/%d/%Y").date()`. -/
def strptimeMdY (cs : List Char) : Option DateT :=
  match splitDateParts '/' cs with
  | none => none
  | some (a, b, c) =>
    if monthRunOk a && dayRunOk b && yearRunOk c then
      mkValidDate (strToNat c) (strToNat a) (strToNat b)
    else none

/-- `strptime(s, "%d/%m/%Y").date()`. -/
def strptimeDmY (cs : List Char) : Option DateT :=
  match splitDateParts '/' cs with
  | none => none
  | some (a, b, c) =>
    if dayRunOk a && monthRunOk b && yearRunOk c then
      mkValidDate (strToNat c) (strToNat b) (strToNat a)
    else none

/-- `strptime(s, "%d-%m-%Y").date()`. -/
def strptimeDmYdash (cs : List Char) : Option DateT :=
  match splitDateParts '-' cs with
  | none => none
  | some (a, b, c) =>
    if dayRunOk a && monthRunOk b && yearRunOk c then
      mkValidDate (strToNat c) (strToNat b) (strToNat a)
    else none

/-- The `for fmt in formats` loop of `parse_date`: first success wins, in
the fixed order ISO, US, European, dashed. -/
def tryDateFormats (cs : List Char) : Option DateT :=
  match strptimeYmd cs with
  | some d => some d
  | none =>
    match strptimeMdY cs with
    | some d => some d
    | none =>
      match strptimeDmY cs with
      | some d => some d
      | none => strptimeDmYdash cs

/-! Regex machinery for the two searches in `parse_date`, both built on the
alternation `[0-9]{1,2}/[0-9]{1,2}/[0-9]{2,4}|[0-9]{4}-[0-9]{1,2}-[0-9]{1,2}`.
`re.search` scans start positions left to right; at one position, greedy
counted repetitions try longer digit runs first. -/

/-- Take exactly `n` leading digits, or fail. -/
def takeDigits (n : Nat) (cs : List Char) : Option (List Char × List Char) :=
  let t := cs.take n
  if t.length = n ∧ t.all Char.isDigit then some (t, cs.drop n) else none

/-- First alternative `[0-9]{1,2}/[0-9]{1,2}/[0-9]{2,4}` matched at the
start of `cs`; returns (matched text, rest). -/
def dateAlt1 (cs : List Char) : Option (List Char × List Char) :=
  [2, 1].findSome? fun n1 =>
    (takeDigits n1 cs).bind fun (a, r1) =>
      match r1 with
      | '/' :: r2 =>
        [2, 1].findSome? fun n2 =>
          (takeDigits n2 r2).bind fun (b, r3) =>
            match r3 with
            | '/' :: r4 =>
              [4, 3, 2].findSome? fun n3 =>
                (takeDigits n3 r4).map fun (c, r5) =>
                  (a ++ '/' :: b ++ '/' :: c, r5)
            | _ => none
      | _ => none

/-- Second alternative `[0-9]{4}-[0-9]{1,2}-[0-9]{1,2}` matched at the
start of `cs`. -/
def dateAlt2 (cs : List Char) : Option (List Char × List Char) :=
  (takeDigits 4 cs).bind fun (a, r1) =>
    match r1 with
    | '-' :: r2 =>
      [2, 1].findSome? fun n2 =>
        (takeDigits n2 r2).bind fun (b, r3) =>
          match r3 with
          | '-' :: r4 =>
            [2, 1].findSome? fun n3 =>
              (takeDigits n3 r4).map fun (c, r5) =>
                (a ++ '-' :: b ++ '-' :: c, r5)
          | _ => none
    | _ => none

/-- The full alternation tried at one position. -/
def dateAltAt (cs : List Char) : Option (List Char × List Char) :=
  match dateAlt1 cs with
  | some r => some r
  | none => dateAlt2 cs

/-- `re.search` of the bare date alternation: first start position (left to
right) at which it matches; returns the captured text. -/
def dateLikeSearch : List Char → Option (List Char)
  | [] => none
  | c :: rest =>
    match dateAltAt (c :: rest) with
    | some (g, _) => some g
    | none => dateLikeSearch rest

/-- Case-insensitive literal `as of ` at the start of `cs` (the
`re.IGNORECASE` flag on the letters; spaces match themselves). -/
def asOfLit : List Char → Option (List Char)
  | c1 :: c2 :: c3 :: c4 :: c5 :: c6 :: rest =>
    if (c1 = 'a' ∨ c1 = 'A') ∧ (c2 = 's' ∨ c2 = 'S') ∧ c3 = ' ' ∧
       (c4 = 'o' ∨ c4 = 'O') ∧ (c5 = 'f' ∨ c5 = 'F') ∧ c6 = ' ' then
      some rest
    else none
  | _ => none

/-- `re.search(r'as of (alternation)', s, re.IGNORECASE)`: first position
where the literal and then the date alternation match; returns group 1. -/
def asOfSearch : List Char → Option (List Char)
  | [] => none
  | c :: rest =>
    match asOfLit (c :: rest) with
    | some r =>
      match dateAltAt r with
      | some (g, _) => some g
      | none => asOfSearch rest
    | none => asOfSearch rest

/-- `parsers.parse_date`: replace the input by the `as of` date if that
pattern occurs, try the four formats in order, then retry them on the
first date-like substring.  (The source wraps the fallback in a
`try/except` that can never fire here: nothing in it raises.) -/
def parse_date (date_str : String) : Option DateT :=
  let cs :=
    match asOfSearch date_str.data with
    | some g => g
    | none => date_str.data
  match tryDateFormats cs with
  | some d => some d
  | none =>
    match dateLikeSearch cs with
    | some g => tryDateFormats g
    | none => none

/-- Two-digit zero-padded rendering (for month/day values up to 99). -/
def pad2 (n : Nat) : List Char :=
  if n < 10 then ['0', digitChar n] else natDigits n

/-- The padded ISO rendering `YYYY-MM-DD` of a date. -/
def isoString (d : DateT) : String :=
  ⟨natDigits d.year ++ '-' :: (pad2 d.month ++ '-' :: pad2 d.day)⟩

/-- The padded US rendering `MM/DD/YYYY` of a date. -/
def usString (d : DateT) : String :=
  ⟨pad2 d.month ++ '/' :: (pad2 d.day ++ '/' :: natDigits d.year)⟩

/-- The padded European slash rendering `DD/MM/YYYY` of a date. -/
def euSlashString (d : DateT) : String :=
  ⟨pad2 d.day ++ '/' :: (pad2 d.month ++ '/' :: natDigits d.year)⟩

/-- The padded European dash rendering `DD-MM-YYYY` of a date. -/
def euDashString (d : DateT) : String :=
  ⟨pad2 d.day ++ '-' :: (pad2 d.month ++ '-' :: natDigits d.year)⟩

/-- The calendar dates the padded renderings cover. -/
def validDate (d : DateT) : Prop :=
  1000 ≤ d.year ∧ d.year ≤ 9999 ∧ 1 ≤ d.month ∧ d.month ≤ 12 ∧
    1 ≤ d.day ∧ d.day ≤ daysInMonth d.year d.month

/-! ## Transaction, instrument and option type enums (`models.py`) -/

inductive TransactionType where
  | buy | sell | buy_to_open | sell_to_open | buy_to_close | sell_to_close
  | option_exercise | option_assignment | option_expiration
  | dividend | interest | deposit | withdrawal
  | transfer_in | transfer_out | fee | split | other
deriving DecidableEq, Repr

/-- `TransactionType.value`. -/
def ttValue : TransactionType → String
  | .buy => "buy"
  | .sell => "sell"
  | .buy_to_open => "buy_to_open"
  | .sell_to_open => "sell_to_open"
  | .buy_to_close => "buy_to_close"
  | .sell_to_close => "sell_to_close"
  | .option_exercise => "option_exercise"
  | .option_assignment => "option_assignment"
  | .option_expiration => "option_expiration"
  | .dividend => "dividend"
  | .interest => "interest"
  | .deposit => "deposit"
  | .withdrawal => "withdrawal"
  | .transfer_in => "transfer_in"
  | .transfer_out => "transfer_out"
  | .fee => "fee"
  | .split => "split"
  | .other => "other"

/-- `TransactionType(s)`: value-string lookup, `None` models `ValueError`. -/
def ttOfValue (s : String) : Option TransactionType :=
  [TransactionType.buy, .sell, .buy_to_open, .sell_to_open, .buy_to_close,
   .sell_to_close, .option_exercise, .option_assignment, .option_expiration,
   .dividend, .interest, .deposit, .withdrawal, .transfer_in, .transfer_out,
   .fee, .split, .other].find? (fun t => ttValue t = s)

inductive InstrumentType where
  | stock | etf | option | cash | other
deriving DecidableEq, Repr

def itValue : InstrumentType → String
  | .stock => "stock"
  | .etf => "etf"
  | .option => "option"
  | .cash => "cash"
  | .other => "other"

def itOfValue (s : String) : Option InstrumentType :=
  [InstrumentType.stock, .etf, .option, .cash, .other].find?
    (fun t => itValue t = s)

inductive OptionType where
  | call | put
deriving DecidableEq, Repr

/-! ## Broker mapping store (`utils.TransactionTypeMapper`)

The store is `broker → (action substring → type-code string)`; Python
dicts preserve insertion order, modelled by association lists.  The
singleton instance is global mutable state loaded from a JSON file; the
embedding passes the store explicitly.  `get_transaction_type` and the
standardizer below are parameterised by it. -/

abbrev Bucket := List (String × String)
abbrev MapStore := List (String × Bucket)

def bucketOf (store : MapStore) (broker : String) : Option Bucket :=
  (store.find? (fun p => p.1 = broker)).map (·.2)

/-- One `for key, value in bucket.items(): if key in action_lower` scan. -/
def scanBucket (b : Bucket) (action_lower : String) : Option String :=
  (b.find? (fun p => sIn p.1 action_lower)).map (·.2)

/-- `TransactionTypeMapper._init_default_mappings`, key order as written. -/
def defaultMappings : MapStore :=
  [("general",
    [("buy", "buy"), ("sell", "sell"), ("dividend", "dividend"),
     ("interest", "interest"), ("deposit", "deposit"),
     ("withdrawal", "withdrawal"), ("fee", "fee"), ("split", "split"),
     ("transfer", "transfer_in"), ("journal", "transfer_in"),
     ("transfer shares", "transfer_in"), ("journal shares", "transfer_in"),
     ("transfer securities", "transfer_in"), ("transfer funds", "transfer_in"),
     ("securities transferred", "transfer_in")]),
   ("fidelity",
    [("bought", "buy"), ("sold", "sell"), ("cash contribution", "deposit"),
     ("dividend received", "dividend"), ("reinvestment", "buy"),
     ("transferred in", "transfer_in"), ("transferred out", "transfer_out"),
     ("journaled", "transfer_in")]),
   ("schwab",
    [("bought", "buy"), ("sold", "sell"), ("qualified dividend", "dividend"),
     ("non-qualified dividend", "dividend"), ("bank interest", "interest"),
     ("service fee", "fee"), ("journal", "transfer_in"),
     ("MoneyLink Transfer", "transfer_in")]),
   ("robinhood",
    [("market buy", "buy"), ("market sell", "sell"), ("limit buy", "buy"),
     ("limit sell", "sell"), ("dividend", "dividend"), ("deposit", "deposit"),
     ("withdrawal", "withdrawal"), ("transfer", "transfer_in")]),
   ("ibkr",
    [("buy", "buy"), ("sell", "sell"), ("dividend", "dividend"),
     ("deposit", "deposit"), ("withdrawal", "withdrawal"),
     ("transfer", "transfer_in"), ("cash transfer", "transfer_in")]),
   ("tdameritrade",
    [("bought", "buy"), ("sold", "sell"), ("reinvestment", "buy"),
     ("dividend", "dividend"), ("transfer", "transfer_in")])]

/-- The scan part of `get_transaction_type`: broker-specific bucket first
(broker truthy and present in the store), then the `general` bucket. -/
def lookupResult (store : MapStore) (broker : Option String)
    (action_lower : String) : Option String :=
  let fromBroker :=
    match broker with
    | some b =>
      if b ≠ "" then
        match bucketOf store (pyLower b) with
        | some bucket => scanBucket bucket action_lower
        | none => none
      else none
    | none => none
  match fromBroker with
  | some v => some v
  | none =>
    match bucketOf store "general" with
    | some bucket => scanBucket bucket action_lower
    | none => none

/-- `TransactionTypeMapper.get_transaction_type`: scan, then override the
direction of a transfer code by the sign of the quantity, then convert the
code string to the enum (invalid codes degrade to `None`). -/
def get_transaction_type (store : MapStore) (action_text : String)
    (broker : Option String) (quantity : Option ℚ) : Option TransactionType :=
  let action_lower := pyLower action_text
  let result := lookupResult store broker action_lower
  let result :=
    if (result = some "transfer_in" ∨ result = some "transfer_out") ∧
        quantity.isSome then
      match quantity with
      | some q => if q < 0 then some "transfer_out" else some "transfer_in"
      | none => result
    else result
  match result with
  | some v => ttOfValue v
  | none => none

/-- The hardcoded `option_action_mapping` dict of
`standardize_option_transaction_type`, in insertion order. -/
def optionActionPairs : List (String × TransactionType) :=
  [("buy to open", .buy_to_open), ("bto", .buy_to_open),
   ("open buy", .buy_to_open), ("opening purchase", .buy_to_open),
   ("sell to open", .sell_to_open), ("sto", .sell_to_open),
   ("open sell", .sell_to_open), ("opening sale", .sell_to_open),
   ("option writing", .sell_to_open), ("write", .sell_to_open),
   ("buy to close", .buy_to_close), ("btc", .buy_to_close),
   ("close buy", .buy_to_close), ("closing purchase", .buy_to_close),
   ("sell to close", .sell_to_close), ("stc", .sell_to_close),
   ("close sell", .sell_to_close), ("closing sale", .sell_to_close),
   ("exercise", .option_exercise), ("exercised", .option_exercise),
   ("assignment", .option_assignment), ("assigned", .option_assignment),
   ("expiration", .option_expiration), ("expired", .option_expiration),
   ("worthless", .option_expiration)]

/-- `parsers.standardize_option_transaction_type`, parameterised by the
mapping store held by the global `transaction_type_mapper`. -/
def standardize_option_transaction_type (store : MapStore)
    (action_str : String) (is_option : Bool) (quantity : Option ℚ)
    (broker : Option String) : TransactionType :=
  let action := pyStrip (pyLower action_str)
  match get_transaction_type store action broker quantity with
  | some t => t
  | none =>
    match (optionActionPairs.find? (fun p => sIn p.1 action)).map (·.2) with
    | some t => t
    | none =>
      if is_option ∧ (sIn "buy" action ∨ sIn "purchase" action) then
        .buy_to_open
      else if is_option ∧ sIn "sell" action then .sell_to_close
      else if sIn "buy" action then .buy
      else if sIn "sell" action then .sell
      else if sIn "dividend" action then .dividend
      else if sIn "interest" action then .interest
      else if sIn "deposit" action then .deposit
      else if sIn "withdrawal" action then .withdrawal
      else if sIn "transfer" action ∨ sIn "journal" action then
        match quantity with
        | some q => if q < 0 then .transfer_out else .transfer_in
        | none => .transfer_in
      else if sIn "fee" action then .fee
      else if sIn "split" action then .split
      else .other

/-! ## Option symbol/description parser (`parsers.parse_option_details`) -/

structure OptionDetails where
  is_option : Bool
  ticker : String
  option_type : Option OptionType
  expiration_date : Option DateT
  strike_price : Option ℚ
deriving DecidableEq, Repr

def isAZ (c : Char) : Bool := 'A' ≤ c && c ≤ 'Z'

/-- `re.match(r'^([A-Z]+)([0-9]{6})([CP])([0-9]{8})$', symbol)`, and the
field extraction of the OCC branch.  The character classes are disjoint
and the counts fixed, so maximal runs need no backtracking.  A bad
embedded date (`ValueError`) leaves `expiration_date` unset. -/
def occMatch (cs : List Char) : Option OptionDetails :=
  let letters := cs.takeWhile isAZ
  if letters.isEmpty then none
  else
    (takeDigits 6 (cs.dropWhile isAZ)).bind fun (d6, r1) =>
      match r1 with
      | c :: r2 =>
        if c = 'C' ∨ c = 'P' then
          (takeDigits 8 r2).bind fun (d8, r3) =>
            if r3.isEmpty then
              some
                { is_option := true
                  ticker := ⟨letters⟩
                  option_type := some (if c = 'C' then .call else .put)
                  expiration_date :=
                    mkValidDate (2000 + strToNat (d6.take 2))
                      (strToNat ((d6.drop 2).take 2)) (strToNat (d6.drop 4))
                  strike_price := some ((strToNat d8 : ℚ) / 1000) }
            else none
        else none
      | [] => none

/-- Countdown list `[n, n-1, ..., 1]` for greedy repetition candidates. -/
def descCounts (n : Nat) : List Nat := (List.range n).reverse.map (· + 1)

/-- The `([A-Z\s]+)\s` part of the description ticker regex, with the
greedy `\s+` before it: full backtracking over both repetition lengths. -/
def tickerGroupAt (rest : List Char) : Option (List Char) :=
  (descCounts (rest.takeWhile isPyWs).length).findSome? fun k =>
    let r := rest.drop k
    (descCounts (r.takeWhile (fun c => isAZ c || isPyWs c)).length).findSome?
      fun g =>
        match r.drop g with
        | c :: _ => if isPyWs c then some (r.take g) else none
        | [] => none

/-- `re.search(r'^(?:CALL|PUT)\s+([A-Z\s]+)\s', description)`: anchored,
case-sensitive. -/
def descTickerMatch (cs : List Char) : Option (List Char) :=
  if isPrefixB "CALL".data cs then tickerGroupAt (cs.drop 4)
  else if isPrefixB "PUT".data cs then tickerGroupAt (cs.drop 3)
  else none

/-- `[0-9]+(?:\.[0-9]+)?` matched at the start of `cs`: maximal digit run,
then the optional fraction if a digit follows the dot.  Returns the
matched text and the rest. -/
def numAt (cs : List Char) : Option (List Char × List Char) :=
  let d := cs.takeWhile Char.isDigit
  if d.isEmpty then none
  else
    match cs.dropWhile Char.isDigit with
    | '.' :: r2 =>
      let f := r2.takeWhile Char.isDigit
      if f.isEmpty then some (d, cs.dropWhile Char.isDigit)
      else some (d ++ '.' :: f, r2.dropWhile Char.isDigit)
    | r => some (d, r)

/-- `re.search(r'\$([0-9]+(?:\.[0-9]+)?)', s)`. -/
def searchDollarNum : List Char → Option (List Char)
  | [] => none
  | c :: rest =>
    if c = '$' then
      match numAt rest with
      | some (g, _) => some g
      | none => searchDollarNum rest
    else searchDollarNum rest

/-- `re.search(r'([0-9]+(?:\.[0-9]+)?)\s*(?:strike|put|call)', s)`: number,
optional whitespace, keyword.  The keyword starts with a letter, so the
greedy digit/whitespace runs are deterministic. -/
def searchNumKeyword : List Char → Option (List Char)
  | [] => none
  | c :: rest =>
    match
      (numAt (c :: rest)).bind fun (g, r) =>
        let r2 := r.dropWhile isPyWs
        if isPrefixB "strike".data r2 ∨ isPrefixB "put".data r2 ∨
            isPrefixB "call".data r2 then some g
        else none
    with
    | some g => some g
    | none => searchNumKeyword rest

/-- `re.search(r'([0-9]+(?:\.[0-9]+)?)', s)`. -/
def searchBareNum : List Char → Option (List Char)
  | [] => none
  | c :: rest =>
    match numAt (c :: rest) with
    | some (g, _) => some g
    | none => searchBareNum rest

/-- The strike-price pattern cascade: each pattern is searched in order;
a match whose text `Decimal` accepts wins, otherwise the next pattern is
tried.  (For these patterns `Decimal` always accepts the captured text.) -/
def strikeFromDesc (cs : List Char) : Option ℚ :=
  match (searchDollarNum cs).bind (fun g => pyDecimal ⟨g⟩) with
  | some v => some v
  | none =>
    match (searchNumKeyword cs).bind (fun g => pyDecimal ⟨g⟩) with
    | some v => some v
    | none => (searchBareNum cs).bind (fun g => pyDecimal ⟨g⟩)

/-- `[0-9]{1,2}/[0-9]{1,2}/(?:[0-9]{2}|[0-9]{4})` matched at the start:
note the year alternation tries two digits first, so a four-digit year is
captured truncated to its first two digits. -/
def slashDateYY (cs : List Char) : Option (List Char) :=
  [2, 1].findSome? fun n1 =>
    (takeDigits n1 cs).bind fun (a, r1) =>
      match r1 with
      | '/' :: r2 =>
        [2, 1].findSome? fun n2 =>
          (takeDigits n2 r2).bind fun (b, r3) =>
            match r3 with
            | '/' :: r4 =>
              [2, 4].findSome? fun n3 =>
                (takeDigits n3 r4).map fun (c, _) =>
                  a ++ '/' :: b ++ '/' :: c
            | _ => none
      | _ => none

/-- Case-insensitive literal `exp` then `\s+` then the slash date, matched
at the start of `cs`. -/
def expDateAt (cs : List Char) : Option (List Char) :=
  match cs with
  | c1 :: c2 :: c3 :: rest =>
    if (c1 = 'e' ∨ c1 = 'E') ∧ (c2 = 'x' ∨ c2 = 'X') ∧
        (c3 = 'p' ∨ c3 = 'P') then
      let w := rest.takeWhile isPyWs
      if w.isEmpty then none else slashDateYY (rest.dropWhile isPyWs)
    else none
  | _ => none

/-- `re.search(r'exp\s+(date)', s, re.IGNORECASE)`. -/
def searchExpDate : List Char → Option (List Char)
  | [] => none
  | c :: rest =>
    match expDateAt (c :: rest) with
    | some g => some g
    | none => searchExpDate rest

/-- `re.search(r'(date)', s)` for the bare slash-date pattern. -/
def searchSlashDate : List Char → Option (List Char)
  | [] => none
  | c :: rest =>
    match slashDateYY (c :: rest) with
    | some g => some g
    | none => searchSlashDate rest

/-- The expiration pattern cascade: the first pattern that produces a
regex match wins and its captured text is handed to `parse_date`; the
result is stored even when `parse_date` returns `None`. -/
def expFromDesc (cs : List Char) : Option (Option DateT) :=
  match searchExpDate cs with
  | some g => some (parse_date ⟨g⟩)
  | none =>
    match searchSlashDate cs with
    | some g => some (parse_date ⟨g⟩)
    | none => none

/-- The description branch of `parse_option_details` (entered when the
lowercase description contains an option indicator). -/
def descBranch (symbol description : String) (r0 : OptionDetails) :
    OptionDetails :=
  let r := { r0 with is_option := true }
  let r :=
    if symbol = "" then
      match descTickerMatch description.data with
      | some g => { r with ticker := ⟨stripChars g⟩ }
      | none => r
    else r
  let dl := pyLower description
  let r :=
    if sIn "call" dl then { r with option_type := some .call }
    else if sIn "put" dl then { r with option_type := some .put }
    else r
  let r :=
    match strikeFromDesc description.data with
    | some v => { r with strike_price := some v }
    | none => r
  match expFromDesc description.data with
  | some e => { r with expiration_date := e }
  | none => r

/-- The option-type token test at the end of the space-delimited loop. -/
def optTypeStep (r : OptionDetails) (p : List Char) : OptionDetails :=
  let up := pyUpper ⟨p⟩
  if (up = "C" ∨ up = "CALL") ∧ r.option_type = none then
    { r with option_type := some .call }
  else if (up = "P" ∨ up = "PUT") ∧ r.option_type = none then
    { r with option_type := some .put }
  else r

/-- One iteration of the `for part in parts[1:]` loop: date token, else
strike token (`not result['strike_price']` is also true at strike 0),
else option-type token. -/
def spacePartStep (r : OptionDetails) (p : List Char) : OptionDetails :=
  let dv := parse_date ⟨p⟩
  if dv.isSome ∧ r.expiration_date = none then { r with expiration_date := dv }
  else
    match pyDecimal ⟨p.filter (fun c => c ≠ '$' ∧ c ≠ ',')⟩ with
    | some pv =>
      if r.strike_price = none ∨ r.strike_price = some 0 then
        { r with strike_price := some pv }
      else optTypeStep r p
    | none => optTypeStep r p

/-- The space-delimited symbol branch (`' ' in symbol`, at least three
whitespace-separated parts). -/
def spaceBranch (symbol : String) (r0 : OptionDetails) : OptionDetails :=
  match pySplitWs symbol.data with
  | p0 :: p1 :: p2 :: rest =>
    let r := { r0 with ticker := ⟨p0⟩, is_option := true }
    (p1 :: p2 :: rest).foldl spacePartStep r
  | _ => r0

/-- The final default of `parse_option_details` (lines 324-327): a
detected option with no resolved type becomes a CALL. -/
def finalizeDefault (r2 : OptionDetails) : OptionDetails :=
  if r2.is_option ∧ r2.option_type = none then
    { r2 with option_type := some OptionType.call }
  else r2

/-- `parsers.parse_option_details`.  The OCC branch returns early; the
description and space branches both run when applicable; a final default
turns a detected option without a type into a CALL. -/
def parse_option_details (symbol : String) (description : String) :
    OptionDetails :=
  let init : OptionDetails := ⟨false, symbol, none, none, none⟩
  if symbol = "" ∧ description = "" then init
  else
    match occMatch symbol.data with
    | some r => r
    | none =>
      let r1 :=
        if description ≠ "" ∧
            (["call", "put", "exp", "$", "strike"].any
              (fun i => sIn i (pyLower description))) then
          descBranch symbol description init
        else init
      let r2 :=
        if symbol.data.contains ' ' then spaceBranch symbol r1 else r1
      finalizeDefault r2

/-- `parsers.calculate_amount`. -/
def calculate_amount (quantity price fees : Option ℚ) (action : String) :
    Option ℚ :=
  if (action = "buy" ∨ action = "sell") ∧ quantity.isSome ∧ price.isSome then
    match quantity, price with
    | some q, some p =>
      let amount := q * p
      let amount :=
        match fees with
        | some f => if action = "buy" then amount + f else amount - f
        | none => amount
      some amount
    | _, _ => none
  else none

/-! ## Per-row importer (`csv_import.import_transactions_from_csv`)

One CSV row is an association of header to cell text; a column mapping
associates an application field with a header.  The file-level structural
checks (unreadable file, a mapped column absent from the header) abort the
whole import in the source before any row is processed, so the per-row
model may assume mapped columns resolve; header names are taken to be
non-empty.  The stdlib `json.loads` used for `journal_details` is outside
the repository and is abstracted as a truthiness oracle
`jd : String → Bool` (whether the decoded value is truthy); no claim reads
the decoded value.  The dictionary row record is modelled as a fixed-shape
record: a key that is only ever set to a non-`None` value is an `Option`
field (`none` = key absent); `quantity`, `price`, `fees` fold the
key-present-with-`None` state into `none`, which every later read
(`transaction.get`) treats identically. -/

abbrev RawRow := List (String × String)
abbrev ColMap := List (String × String)

def rowGet (row : RawRow) (h : String) : Option String :=
  (row.find? (fun p => p.1 = h)).map (·.2)

def cmGet (cm : ColMap) (f : String) : Option String :=
  (cm.find? (fun p => p.1 = f)).map (·.2)

/-- The cell for application field `f`: mapped header looked up in the
row (`column_mappings.get(f)` plus the `col in row` check). -/
def colCell (cm : ColMap) (row : RawRow) (f : String) : Option String :=
  match cmGet cm f with
  | some col => rowGet row col
  | none => none

structure Candidate where
  errors : List String := []
  warnings : List String := []
  transaction_date : Option DateT := none
  transaction_type : Option TransactionType := none
  transaction_type_str : Option String := none
  instrument_type : Option InstrumentType := none
  instrument_type_str : Option String := none
  symbol : String := ""
  original_symbol : Option String := none
  option_type : Option OptionType := none
  expiration_date : Option DateT := none
  strike_price : Option ℚ := none
  quantity : Option ℚ := none
  price : Option ℚ := none
  fees : Option ℚ := none
  amount : Option ℚ := none
  account_name : Option String := none
  notes : Option String := none
  journal_details : Option String := none
  journal_details_str : Option String := none
deriving DecidableEq, Repr

def initCandidate : Candidate := {}

/-- `transaction['errors'].append(e)` (the importer never deduplicates). -/
def addErr (c : Candidate) (e : String) : Candidate :=
  { c with errors := c.errors ++ [e] }

def addWarn (c : Candidate) (w : String) : Candidate :=
  { c with warnings := c.warnings ++ [w] }

/-- `account_name.split('(')[-1].split(')')[0]`. -/
def brokerOf (an : String) : String :=
  ⟨((an.data.reverse.takeWhile (fun ch => ch ≠ '(')).reverse).takeWhile
    (fun ch => ch ≠ ')')⟩

/-- Lines 54-63: the date field. -/
def stepDate (cm : ColMap) (row : RawRow) (c : Candidate) : Candidate :=
  match colCell cm row "date" with
  | some v =>
    match parse_date v with
    | some dt => { c with transaction_date := some dt }
    | none => addErr c ("Invalid date format: " ++ v)
  | none => addErr c "Date field is required but not mapped"

/-- Lines 65-112 (and the line-182 re-check): quantity, option detection,
the expiration forcing, the broker hint and the transaction type.  The
source parses quantity inside the action branch (lines 86-88) and at line
182 when that branch did not run; both give the same value and only
`transaction.get('quantity')` reads it afterwards, so the model sets it
once up front.  The `standardize` call never raises in the model, so the
`except` branch of lines 107-110 is dead here. -/
def stepAction (store : MapStore) (cm : ColMap) (row : RawRow)
    (c : Candidate) : Candidate :=
  let qty :=
    match colCell cm row "quantity" with
    | some qv => parse_decimal qv
    | none => none
  let c := { c with quantity := qty }
  match colCell cm row "action" with
  | some v =>
    let action := pyLower (pyStrip v)
    let is_option_transaction :=
      (["call", "put", "option", "bto", "sto", "btc", "stc", "exercise",
        "assign"].any (fun i => sIn i action)) ||
        c.instrument_type = some .option
    let c :=
      if is_option_transaction then { c with instrument_type := some .option }
      else c
    let c :=
      if sIn "expir" action || sIn "worthless" action then
        { c with price := some 0, amount := some 0 }
      else c
    let broker :=
      match colCell cm row "account_name" with
      | some av =>
        let an := pyStrip av
        if an ≠ "" ∧ an.data.contains '(' ∧ an.data.contains ')' then
          some (brokerOf an)
        else none
      | none => none
    let tt := standardize_option_transaction_type store action
      is_option_transaction qty broker
    { c with transaction_type := some tt }
  | none => addErr c "Action field is required but not mapped"

/-- Lines 114-148: symbol, description and option details. -/
def stepSymbolOpt (cm : ColMap) (row : RawRow) (c : Candidate) : Candidate :=
  let symbol :=
    match colCell cm row "symbol" with
    | some sv => pyUpper (pyStrip sv)
    | none => ""
  let description :=
    match colCell cm row "notes" with
    | some nv => pyStrip nv
    | none => ""
  let c := { c with symbol := symbol }
  if symbol ≠ "" ∨ description ≠ "" then
    let od := parse_option_details symbol description
    if od.is_option then
      let c :=
        { c with
          instrument_type := some InstrumentType.option
          symbol := od.ticker
          option_type := od.option_type
          expiration_date := od.expiration_date
          strike_price := od.strike_price
          original_symbol := some symbol }
      if description ≠ "" then { c with notes := some description } else c
    else c
  else c

/-- Lines 150-154: the missing-symbol warning. -/
def stepSymbolWarn (c : Candidate) : Candidate :=
  if c.symbol = "" then
    match c.transaction_type with
    | some tt =>
      if tt ∈ ([.deposit, .withdrawal, .fee, .interest] :
          List TransactionType) then c
      else addWarn c "Symbol is recommended for this transaction type but not mapped"
    | none => c
  else c

/-- Lines 156-169: instrument type (explicit column, else the stock
default when a symbol is present). -/
def stepInstr (cm : ColMap) (row : RawRow) (c : Candidate) : Candidate :=
  match colCell cm row "instrument_type" with
  | some iv =>
    let it := pyStrip (pyLower iv)
    if it ≠ "" then
      match itOfValue it with
      | some t => { c with instrument_type := some t }
      | none =>
        { addErr c ("Invalid instrument type: " ++ it) with
          instrument_type_str := some it }
    else c
  | none =>
    if c.symbol ≠ "" then
      addWarn { c with instrument_type := some .stock }
        "Instrument type not provided, defaulting to \x27stock\x27"
    else c

/-- Lines 171-178: account name. -/
def stepAccount (cm : ColMap) (row : RawRow) (c : Candidate) : Candidate :=
  match colCell cm row "account_name" with
  | some av =>
    let an := pyStrip av
    let c := { c with account_name := some an }
    if an = "" then addErr c "Account name is empty" else c
  | none => addErr c "Account name is required but not mapped"

/-- Lines 186-188: price. -/
def stepPrice (cm : ColMap) (row : RawRow) (c : Candidate) : Candidate :=
  match colCell cm row "price" with
  | some pv => { c with price := parse_decimal pv }
  | none => c

/-- Lines 190-195: fees (`row[fees_column] or '0'`, default 0 when the
column is unmapped). -/
def stepFees (cm : ColMap) (row : RawRow) (c : Candidate) : Candidate :=
  match colCell cm row "fees" with
  | some fv => { c with fees := parse_decimal (if fv = "" then "0" else fv) }
  | none => { c with fees := some 0 }

/-- Lines 197-205: journal details through the JSON truthiness oracle. -/
def stepJournal (jd : String → Bool) (cm : ColMap) (row : RawRow)
    (c : Candidate) : Candidate :=
  match colCell cm row "journal_details" with
  | some jv =>
    if pyStrip jv ≠ "" then
      if jd jv then { c with journal_details := some jv }
      else
        { addErr c ("Invalid JSON in journal_details: " ++ jv) with
          journal_details_str := some jv }
    else c
  | none => c

/-- Lines 207-210: notes. -/
def stepNotes (cm : ColMap) (row : RawRow) (c : Candidate) : Candidate :=
  match colCell cm row "notes" with
  | some nv => { c with notes := some (pyStrip nv) }
  | none => c

/-- Lines 212-230: explicit amount, else the calculated amount. -/
def stepAmount (cm : ColMap) (row : RawRow) (c : Candidate) : Candidate :=
  let c :=
    match colCell cm row "amount" with
    | some av =>
      match parse_decimal av with
      | some ea => { c with amount := some ea }
      | none => c
    | none => c
  if c.amount = none ∧ c.transaction_type.isSome then
    match c.transaction_type with
    | some tt =>
      match calculate_amount c.quantity c.price c.fees (ttValue tt) with
      | some ca => { c with amount := some ca }
      | none => c
    | none => c
  else c

/-- Lines 232-246: the type-specific required-field checks. -/
def stepChecks (c : Candidate) : Candidate :=
  match c.transaction_type with
  | some tt =>
    let c :=
      if tt = .buy ∨ tt = .sell then
        let c :=
          if c.quantity = none then
            addErr c "Quantity is required for buy/sell transactions"
          else c
        if c.price = none then
          addErr c "Price is required for buy/sell transactions"
        else c
      else if tt = .deposit ∨ tt = .withdrawal ∨ tt = .fee then
        if c.amount = none then
          addErr c "Amount is required for cash transactions"
        else c
      else c
    if c.amount = none then addErr c "Cannot determine transaction amount"
    else c
  | none => c

/-- One row of `import_transactions_from_csv` (lines 45-248), from the raw
row and column mapping to the staged candidate. -/
def import_transaction_row (store : MapStore) (jd : String → Bool)
    (cm : ColMap) (row : RawRow) : Candidate :=
  stepChecks (stepAmount cm row (stepNotes cm row (stepJournal jd cm row
    (stepFees cm row (stepPrice cm row (stepAccount cm row (stepInstr cm row
      (stepSymbolWarn (stepSymbolOpt cm row (stepAction store cm row
        (stepDate cm row initCandidate)))))))))))

/-! ## Staging grid (`table_model.TransactionTableModel`)

`setData` edits one row of the model's candidate list and re-validates it;
the model is given here per candidate (the list wrapper adds nothing the
claims need).  Edited values arrive through typed Qt delegates, one per
column kind, so each branch sees the value kinds its delegate produces:
strings, exact decimals, structured dates, or an empty/null clear. -/

inductive EditValue where
  | vStr (s : String)
  | vDec (q : ℚ)
  | vDate (d : DateT)
  | vNone
deriving DecidableEq, Repr

/-- `TransactionTableModel._add_error`: append if not already present. -/
def tmAddError (c : Candidate) (e : String) : Candidate :=
  if e ∈ c.errors then c else { c with errors := c.errors ++ [e] }

/-- `_add_error` on the error list alone. -/
def listAddError (es : List String) (e : String) : List String :=
  if e ∈ es then es else es ++ [e]

/-- The error list `_validate_row` computes, in source order; the checks
read only non-error fields, so the whole method is `errors := this list`.
Enum and date values are always truthy in Python, so their `not data[k]`
tests are `none` tests here; strings are falsy when empty.  (`_remove_error`
also deletes an emptied list from the dictionary; an empty list and a
deleted key validate identically.) -/
def validateErrors (c : Candidate) : List String :=
  let es : List String := []
  let es :=
    if c.transaction_date = none then listAddError es "Date is required"
    else es
  let es :=
    if c.transaction_type = none then
      listAddError es "Transaction type is required"
    else es
  let es :=
    match c.account_name with
    | none => listAddError es "Account name is required"
    | some an =>
      if an = "" ∨ pyStrip an = "" then
        listAddError es "Account name is required"
      else
        let stale := es.filter (fun e => sIn "account name" (pyLower e))
        stale.foldl (fun acc e => acc.erase e) es
  match c.transaction_type with
  | none => es
  | some tt =>
    let symbol_required :=
      tt ∈ ([.buy, .sell, .dividend, .split] : List TransactionType)
    let es :=
      if symbol_required then
        let es :=
          if c.symbol = "" then
            listAddError es "Symbol is required for this transaction type"
          else es
        if c.instrument_type = none then
          listAddError es "Instrument type is required when symbol is provided"
        else es
      else es
    let es :=
      if tt = .buy ∨ tt = .sell then
        let es :=
          if c.quantity = none then
            listAddError es "Quantity is required for buy/sell transactions"
          else es
        if c.price = none then
          listAddError es "Price is required for buy/sell transactions"
        else es
      else es
    if c.amount = none then
      listAddError es "Amount is required for all transactions"
    else es

/-- `TransactionTableModel._validate_row`: clear and recompute the error
list from scratch; no other field changes. -/
def validate_row (c : Candidate) : Candidate :=
  { c with errors := validateErrors c }

/-- The numeric-cell coercion of `setData`: clear on empty, exact value
for a decimal, `Decimal(text)` for a string.  `none` is the rejected
edit. -/
def coerceDecimalEdit : EditValue → Option (Option ℚ)
  | .vNone => some none
  | .vStr s => if s = "" then some none else (pyDecimal s).map some
  | .vDec q => some (some q)
  | .vDate _ => none

/-- Write one field of the candidate by column name (the string-column
fallthrough branch of `setData`). -/
def setStrField (c : Candidate) (col : String) (s : String) : Candidate :=
  if col = "symbol" then { c with symbol := s }
  else if col = "account_name" then { c with account_name := some s }
  else if col = "notes" then { c with notes := some s }
  else c

/-- `TransactionTableModel.setData` on one candidate: returns the accepted
flag and the updated candidate.  On a rejected edit the prior value is
kept, a field error recorded, and the row is not re-validated. -/
def setData (jd : String → Bool) (c : Candidate) (col : String)
    (v : EditValue) : Bool × Candidate :=
  let afterSet : Option Candidate :=
    if col = "transaction_date" then
      match v with
      | .vDate d => some { c with transaction_date := some d }
      | .vStr s =>
        match parse_date s with
        | some d => some { c with transaction_date := some d }
        | none => none
      | _ => none
    else if col = "transaction_type" then
      match v with
      | .vStr s =>
        match ttOfValue s with
        | some t => some { c with transaction_type := some t }
        | none => none
      | _ => none
    else if col = "instrument_type" then
      match v with
      | .vStr s =>
        match itOfValue s with
        | some t => some { c with instrument_type := some t }
        | none => none
      | _ => none
    else if col = "quantity" then
      (coerceDecimalEdit v).map fun q => { c with quantity := q }
    else if col = "price" then
      (coerceDecimalEdit v).map fun q => { c with price := q }
    else if col = "fees" then
      (coerceDecimalEdit v).map fun q => { c with fees := q }
    else if col = "amount" then
      (coerceDecimalEdit v).map fun q => { c with amount := q }
    else if col = "journal_details" then
      match v with
      | .vNone => some { c with journal_details := none }
      | .vStr s =>
        if s = "" then some { c with journal_details := none }
        else if jd s then some { c with journal_details := some s }
        else none
      | _ => none
    else
      match v with
      | .vStr s => some (setStrField c col s)
      | _ => some c
  match afterSet with
  | none =>
    -- the rejected-edit error recording of the source branches
    if col = "transaction_type" then
      match v with
      | .vStr s =>
        (false,
         tmAddError { c with transaction_type_str := some s }
           ("Invalid transaction type: " ++ s))
      | _ => (false, c)
    else if col = "instrument_type" then
      match v with
      | .vStr s =>
        (false,
         tmAddError { c with instrument_type_str := some s }
           ("Invalid instrument type: " ++ s))
      | _ => (false, c)
    else if col = "quantity" ∨ col = "price" ∨ col = "fees" ∨
        col = "amount" then
      match v with
      | .vStr s =>
        (false, tmAddError c ("Invalid number for " ++ col ++ ": " ++ s))
      | _ => (false, c)
    else if col = "journal_details" then
      match v with
      | .vStr s =>
        (false,
         tmAddError { c with journal_details_str := some s }
           ("Invalid JSON: " ++ s))
      | _ => (false, c)
    else (false, c)
  | some c1 =>
    let c2 :=
      if (col = "quantity" ∨ col = "price" ∨ col = "fees") ∧
          c1.transaction_type.isSome then
        match c1.transaction_type with
        | some tt =>
          if tt = .buy ∨ tt = .sell then
            match calculate_amount c1.quantity c1.price c1.fees
                (ttValue tt) with
            | some ca => { c1 with amount := some ca }
            | none => c1
          else c1
        | none => c1
      else c1
    (true, validate_row c2)

/-! ## Persistence (`db.py`)

The SQLAlchemy session is modelled as an explicit state threaded through
the batch: pending symbol and transaction inserts become visible inside
the session (the `db.flush()`), the final `db.commit()` keeps the threaded
state, and any raise rolls back to the state the session started from.
UUID primary keys are modelled by a counter.  The string-typed
`option_type`/`strike_price` coercion branches of `get_or_create_symbol`
cannot arise from the typed candidates and have no counterpart here;
`related_transaction_id` is never set by the importer and is omitted. -/

structure AccountRec where
  id : Nat
  name : String
deriving DecidableEq, Repr

structure SymbolRec where
  id : Nat
  ticker : String
  instrument_type : InstrumentType
  option_type : Option OptionType
  expiration_date : Option DateT
  strike_price : Option ℚ
deriving DecidableEq, Repr

structure DbTxn where
  account_id : Nat
  symbol_id : Option Nat
  transaction_type : TransactionType
  transaction_date : DateT
  quantity : Option ℚ
  price : Option ℚ
  amount : ℚ
  fees : ℚ
  notes : Option String
deriving DecidableEq, Repr

structure DbState where
  accounts : List AccountRec
  symbols : List SymbolRec
  txns : List DbTxn
  nextId : Nat
deriving DecidableEq, Repr

/-- `db.get_account_by_name`. -/
def get_account_by_name (db : DbState) (account_name : String) :
    Option AccountRec :=
  db.accounts.find? (fun a => a.name = account_name)

/-- The query filter of `get_or_create_symbol`: for options the
`option_type` filter always applies, the expiration and strike filters
only when the value is truthy (`Decimal(0)` is falsy). -/
def symbolMatches (ticker : String) (itype : InstrumentType)
    (otype : Option OptionType) (exp : Option DateT) (strike : Option ℚ)
    (s : SymbolRec) : Bool :=
  decide (s.ticker = ticker) && decide (s.instrument_type = itype) &&
    (!(decide (itype = InstrumentType.option)) ||
      (decide (s.option_type = otype) &&
        (match exp with
         | some e => decide (s.expiration_date = some e)
         | none => true) &&
        (match strike with
         | some v =>
           if v ≠ 0 then decide (s.strike_price = some v) else true
         | none => true)))

/-- `db.get_or_create_symbol`: options default a missing option type to
CALL and require a ticker; the first matching symbol is reused, otherwise
a new record is flushed with a fresh id.  `Except.error` models the
`ValueError` raise. -/
def get_or_create_symbol (db : DbState) (ticker : String)
    (itype : InstrumentType) (otype : Option OptionType)
    (exp : Option DateT) (strike : Option ℚ) :
    Except String (Nat × DbState) :=
  if itype = .option ∧ ticker = "" then
    .error "Ticker is required for option symbols"
  else
    let otype :=
      if itype = .option ∧ otype = none then some OptionType.call else otype
    match db.symbols.find? (symbolMatches ticker itype otype exp strike) with
    | some s => .ok (s.id, db)
    | none =>
      let rec_ : SymbolRec :=
        ⟨db.nextId, ticker, itype, otype, exp, strike⟩
      .ok (db.nextId,
        { db with symbols := db.symbols ++ [rec_], nextId := db.nextId + 1 })

/-- Whether `save_transactions` keeps a row: rows with errors are skipped
(`if transaction.get('errors'): continue`). -/
def commitEligible (c : Candidate) : Bool := c.errors.isEmpty

/-- Lines 94-118: symbol resolution for one row.  `none` means the row is
skipped after a caught symbol-creation `ValueError`. -/
def resolveSymbol (st : DbState) (c : Candidate) :
    Except String (Option (Option Nat × DbState)) :=
  if c.symbol ≠ "" then
    let itype :=
      if c.option_type.isSome || c.expiration_date.isSome ||
          (match c.strike_price with
           | some v => decide (v ≠ 0)
           | none => false) then
        InstrumentType.option
      else c.instrument_type.getD .stock
    match get_or_create_symbol st c.symbol itype c.option_type
        c.expiration_date c.strike_price with
    | .ok (sid, st2) => .ok (some (some sid, st2))
    | .error _ => .ok none
  else .ok (some (none, st))

/-- Lines 120-137: the transaction record appended by one row; `none`
models the `KeyError` on a missing required key. -/
def buildTxn (accountId : Nat) (symbol_id : Option Nat) (c : Candidate) :
    Option DbTxn :=
  match c.transaction_type, c.transaction_date, c.amount with
  | some tt, some td, some am =>
    some
      ⟨accountId, symbol_id, tt, td, c.quantity, c.price, am,
       (match c.fees with
        | some f => if f ≠ 0 then f else 0
        | none => 0),
       c.notes⟩
  | _, _, _ => none

def saveRow (st : DbState) (c : Candidate) : Except String (Option DbState) :=
  match c.account_name with
  | none => .error "KeyError: account_name"
  | some an =>
    match get_account_by_name st an with
    | none => .error ("Account not found: " ++ an)
    | some account =>
      match resolveSymbol st c with
      | .error e => .error e
      | .ok none => .ok none
      | .ok (some (symbol_id, st2)) =>
        match buildTxn account.id symbol_id c with
        | some txn => .ok (some { st2 with txns := st2.txns ++ [txn] })
        | none => .error "KeyError: missing required field"

/-- The loop of `save_transactions` threading the session state.  A raise
propagates. -/
def saveLoop (st : DbState) : List Candidate → Except String DbState
  | [] => .ok st
  | c :: rest =>
    if commitEligible c then
      match saveRow st c with
      | .error e => .error e
      | .ok none => saveLoop st rest
      | .ok (some st2) => saveLoop st2 rest
    else saveLoop st rest

/-- `db.save_transactions`: on success the session commits (the threaded
state is kept); on any raise the session rolls back and the exception
propagates, so the database is left as it was. -/
def save_transactions (transactions : List Candidate) (db : DbState) :
    DbState × Option String :=
  match saveLoop db transactions with
  | .ok st => (st, none)
  | .error e => (db, some e)

/-! ## Column-mapping heuristics (`column_mapper.ColumnMapperDialog`)

The mapping under construction is a finite map from application-field
name to CSV header; preview rows keep the CSV column order. -/

abbrev Mappings := List (String × String)

def mGet (m : Mappings) (f : String) : Option String :=
  (m.find? (fun p => p.1 = f)).map (·.2)

/-- Dict assignment `m[f] = h`. -/
def mSet (m : Mappings) (f h : String) : Mappings :=
  if (m.find? (fun p => p.1 = f)).isSome then
    m.map (fun p => if p.1 = f then (f, h) else p)
  else m ++ [(f, h)]

def mValues (m : Mappings) : List String := m.map (·.2)

/-- `_detect_column_patterns`: the fixed header-pattern table, in
dictionary order. -/
def commonPatterns : List (String × List String) :=
  [("date", ["date", "transaction date", "trade date", "activity date",
             "run date", "open date"]),
   ("symbol", ["symbol", "ticker", "security", "security symbol"]),
   ("action", ["action", "activity", "transaction type", "type",
               "description"]),
   ("quantity", ["quantity", "qty", "shares", "amount"]),
   ("price", ["price", "price ($)", "price/share", "share price"]),
   ("amount", ["amount", "amount ($)", "value", "total", "net amount",
               "proceeds", "total amount"]),
   ("fees", ["fees", "commission", "fees & comm", "commission ($)",
             "fees ($)"]),
   ("account_name", ["account", "account name", "acct"]),
   ("instrument_type", ["instrument type", "security type", "asset class",
                        "type"]),
   ("notes", ["notes", "description", "comments", "memo", "memo_desc"])]

def descriptionFields : List String :=
  ["description", "transaction description", "security description",
   "details"]

/-- The description-like header pass (source lines 388-395): the first
matching header is mapped to `notes` if `notes` is still unmapped. -/
def notesPass (headers : List String) (m : Mappings) : Mappings :=
  match headers with
  | [] => m
  | h :: rest =>
    if descriptionFields.any (fun p => sIn p (pyLower h)) then
      if mGet m "notes" = none then mSet m "notes" h else notesPass rest m
    else notesPass rest m

/-- The inner `for app_field, patterns in common_patterns.items()` loop
for one header: the first field whose pattern list matches and which is
still unmapped receives the header. -/
def patternPassField (pats : List (String × List String)) (hl : String)
    (h : String) (m : Mappings) : Mappings :=
  match pats with
  | [] => m
  | (f, ps) :: rest =>
    if ps.any (fun p => sIn p hl) then
      if mGet m f = none then mSet m f h else patternPassField rest hl h m
    else patternPassField rest hl h m

/-- The metadata skip of the header-pattern pass: headers opening with a
quote or longer than 50 characters are ignored. -/
def headerValid (h : String) : Bool :=
  !((match (pyLower h).data with
     | c :: _ => decide (c = '"')
     | [] => false) || 50 < (pyLower h).length)

/-- The header-pattern pass (source lines 397-411), scanning headers in
file order and skipping invalid ones. -/
def patternPass (headers : List String) (m : Mappings) : Mappings :=
  match headers with
  | [] => m
  | h :: rest =>
    patternPass rest
      (if headerValid h then patternPassField commonPatterns (pyLower h) h m
       else m)

/-- The symbol-inference pass (source lines 417-431). -/
def symbolPass (headers : List String) (previews : List RawRow)
    (m : Mappings) : Mappings :=
  if (mGet m "action").isSome ∧ mGet m "symbol" = none then
    match headers.find?
        (fun h =>
          !(mValues m).contains h &&
            previews.any (fun row =>
              let v := pyUpper (pyStrip ((rowGet row h).getD ""))
              v ≠ "" ∧ v.data.all (fun ch => isAZ ch || ('a' ≤ ch && ch ≤ 'z')) ∧
                v.length ≤ 5))
      with
    | some h => mSet m "symbol" h
    | none => m
  else m

def commonActions : List String :=
  ["buy", "sell", "dividend", "deposit", "withdrawal"]

/-- The action-inference pass (source lines 434-447). -/
def actionPass (headers : List String) (previews : List RawRow)
    (m : Mappings) : Mappings :=
  if (mGet m "date").isSome ∧ mGet m "action" = none then
    match headers.find?
        (fun h =>
          !(mValues m).contains h &&
            previews.any (fun row =>
              commonActions.any
                (fun a => sIn a (pyLower ((rowGet row h).getD "")))))
      with
    | some h => mSet m "action" h
    | none => m
  else m

def mUpdate (m : Mappings) : List (String × String) → Mappings
  | [] => m
  | (f, h) :: rest => mUpdate (mSet m f h) rest

/-- `_detect_special_formats` (source lines 287-369): the four broker
fingerprints, each overwriting via `dict.update`.  The option-data scan of
lines 449-480 writes no mapping and is omitted. -/
def detect_special_formats (headers : List String) (previews : List RawRow)
    (m : Mappings) : Mappings :=
  let m :=
    if ["Run Date", "Action", "Symbol", "Amount ($)"].all
        (fun h => headers.contains h) then
      let m := mUpdate m
        [("date", "Run Date"), ("action", "Action"), ("symbol", "Symbol"),
         ("amount", "Amount ($)"), ("quantity", "Quantity"),
         ("price", "Price ($)"), ("fees", "Fees ($)")]
      if mGet m "account_name" = none ∨ mGet m "account_name" = some "" then
        mSet m "account_name" "Description"
      else m
    else m
  let m :=
    if ["Date", "Symbol", "Description", "Quantity", "Price", "Amount"].all
        (fun h => headers.contains h) then
      let m := mUpdate m
        [("date", "Date"), ("symbol", "Symbol"), ("quantity", "Quantity"),
         ("price", "Price"), ("amount", "Amount")]
      mSet m "action" "Description"
    else m
  let m :=
    if ["Date", "Symbol", "Action", "Quantity", "Price", "Fees & Comm",
        "Amount"].all (fun h => headers.contains h) then
      mUpdate m
        [("date", "Date"), ("symbol", "Symbol"), ("action", "Action"),
         ("quantity", "Quantity"), ("price", "Price"),
         ("fees", "Fees & Comm"), ("amount", "Amount")]
    else m
  if ["Open Date", "Quantity", "Price", "Cost/Share", "Market Value",
      "Holding Period"].all (fun h => headers.contains h) then
    let m := mUpdate m
      [("date", "Open Date"), ("quantity", "Quantity"),
       ("price", "Cost/Share"), ("amount", "Market Value")]
    if mGet m "symbol" = none then
      previews.foldl
        (fun m row =>
          match row.find?
              (fun p =>
                let v := pyStrip p.2
                v ≠ "" ∧
                  v.data.all (fun ch => isAZ ch || ('a' ≤ ch && ch ≤ 'z')) ∧
                  v.length ≤ 5)
            with
          | some p => mSet m "symbol" p.1
          | none => m)
        m
    else m
  else m

/-- `_detect_column_patterns`: the heuristic passes in source order —
description-like headers, header patterns, symbol inference, action
inference — followed by the broker-fingerprint pass. -/
def detect_column_patterns (headers : List String) (previews : List RawRow)
    (m : Mappings) : Mappings :=
  detect_special_formats headers previews
    (actionPass headers previews
      (symbolPass headers previews
        (patternPass headers (notesPass headers m))))

/-! ## Lemmas and claim theorems

The arithmetic of `Rat` in the standard library is marked irreducible for
performance; re-marking it semireducible lets `decide` evaluate the
embedding on concrete inputs (the kernel computes `Nat.gcd` natively). -/

set_option allowUnsafeReducibility true

attribute [semireducible] Rat.add Rat.sub Rat.mul Rat.inv Rat.ofScientific

/-- The OCC branch always resolves an option type (the regex only matches
with a `C` or `P` letter). -/
theorem occMatch_option_type_isSome {cs : List Char} {r : OptionDetails}
    (h : occMatch cs = some r) : r.option_type.isSome := by
  simp only [occMatch] at h
  split at h
  · exact absurd h (by simp)
  · rw [Option.bind_eq_some] at h
    obtain ⟨⟨d6, r1⟩, h1, h2⟩ := h
    cases r1 with
    | nil => exact absurd h2 (by simp)
    | cons c r2 =>
      dsimp only at h2
      split at h2
      · rw [Option.bind_eq_some] at h2
        obtain ⟨⟨d8, r3⟩, h3, h4⟩ := h2
        dsimp only at h4
        split at h4
        · simp only [Option.some.injEq] at h4
          subst h4
          rfl
        · exact absurd h4 (by simp)
      · exact absurd h2 (by simp)

/-- The final default resolves the option type whenever the result is an
option. -/
theorem finalizeDefault_isSome (r2 : OptionDetails)
    (h : (finalizeDefault r2).is_option = true) :
    (finalizeDefault r2).option_type.isSome := by
  by_cases hc : r2.is_option = true ∧ r2.option_type = none
  · simp [finalizeDefault, hc]
  · simp only [finalizeDefault, if_neg hc] at h ⊢
    rcases Decidable.not_and_iff_or_not.mp hc with hc | hc
    · exact absurd h hc
    · exact Option.isSome_iff_ne_none.mpr hc

/-- C7: for every `(symbol, description)` input, the `OptionDetails`
returned by `parse_option_details` satisfies the invariant that
`is_option = true` implies `option_type` is set; in particular a detected
option with no resolved type defaults to CALL. -/
theorem c7_option_type_defaults_to_call (symbol description : String)
    (h : (parse_option_details symbol description).is_option = true) :
    (parse_option_details symbol description).option_type.isSome := by
  by_cases h0 : symbol = "" ∧ description = ""
  · rw [parse_option_details, if_pos h0] at h
    exact absurd h (by simp)
  · cases hocc : occMatch symbol.data with
    | some r =>
      simp only [parse_option_details, if_neg h0, hocc] at h ⊢
      exact occMatch_option_type_isSome hocc
    | none =>
      simp only [parse_option_details, if_neg h0, hocc] at h ⊢
      exact finalizeDefault_isSome _ h

/-- C2 evaluation: with the default-seeded store, the `general` bucket's
`"buy"` substring rule wins before the hardcoded option-phrase table, so
`"Buy to Open"` standardizes to BUY, not BUY_TO_OPEN as the function's own
docstring examples state; `"STC"` and `"unknown garbage"` behave as
documented. -/
theorem c2_buy_to_open_resolves_to_buy :
    standardize_option_transaction_type defaultMappings "Buy to Open" true
        none none = TransactionType.buy ∧
      standardize_option_transaction_type defaultMappings "STC" true none
        none = TransactionType.sell_to_close ∧
      standardize_option_transaction_type defaultMappings "unknown garbage"
        false none none = TransactionType.other := by
  refine ⟨by decide, by decide, by decide⟩

/-- C1: whenever the mapping-store scan resolves the (lowercased) action
to either transfer code, the direction actually returned is a pure
function of the quantity's sign — negative gives TRANSFER_OUT,
non-negative TRANSFER_IN — regardless of which direction the store entry
names, both for `get_transaction_type` and for the standardizer that
delegates to it. -/
theorem c1_transfer_direction_from_sign (store : MapStore)
    (broker : Option String) (action : String) (is_option : Bool) (q : ℚ)
    (h : lookupResult store broker (pyLower (pyStrip (pyLower action))) =
          some "transfer_in" ∨
        lookupResult store broker (pyLower (pyStrip (pyLower action))) =
          some "transfer_out") :
    get_transaction_type store (pyStrip (pyLower action)) broker (some q) =
        some (if q < 0 then TransactionType.transfer_out else
          TransactionType.transfer_in) ∧
      standardize_option_transaction_type store action is_option (some q)
          broker =
        (if q < 0 then TransactionType.transfer_out else
          TransactionType.transfer_in) := by
  have hg : get_transaction_type store (pyStrip (pyLower action)) broker
      (some q) =
      some (if q < 0 then TransactionType.transfer_out else
        TransactionType.transfer_in) := by
    rcases h with h | h <;>
      · simp only [get_transaction_type, h]
        by_cases hq : q < 0 <;> simp [hq] <;> decide
  exact ⟨hg, by simp only [standardize_option_transaction_type, hg]⟩

/-- C1 witness: the default store maps `"journal shares"` to a transfer;
quantity −5 forces TRANSFER_OUT. -/
theorem c1_transfer_direction_from_sign_witness :
    get_transaction_type defaultMappings
        (pyStrip (pyLower "Journal Shares")) none (some (-5)) =
        some TransactionType.transfer_out ∧
      standardize_option_transaction_type defaultMappings "Journal Shares"
          false (some (-5)) none = TransactionType.transfer_out := by
  have h := c1_transfer_direction_from_sign defaultMappings none
    "Journal Shares" false (-5) (Or.inl (by decide))
  have hq : ((-5 : ℚ) < 0) := by norm_num
  constructor
  · rw [h.1, if_pos hq]
  · rw [h.2, if_pos hq]

/-- `get_or_create_symbol` never touches the accounts table. -/
theorem get_or_create_symbol_accounts {db : DbState} {t : String}
    {it : InstrumentType} {ot : Option OptionType} {exp : Option DateT}
    {strike : Option ℚ} {sid : Nat} {db2 : DbState}
    (h : get_or_create_symbol db t it ot exp strike = .ok (sid, db2)) :
    db2.accounts = db.accounts := by
  simp only [get_or_create_symbol] at h
  split at h
  · exact absurd h (by simp)
  · split at h
    · simp only [Except.ok.injEq, Prod.mk.injEq] at h
      rw [← h.2]
    · simp only [Except.ok.injEq, Prod.mk.injEq] at h
      rw [← h.2]

/-- Symbol resolution never touches the accounts table. -/
theorem resolveSymbol_accounts {st : DbState} {c : Candidate}
    {sid : Option Nat} {st2 : DbState}
    (h : resolveSymbol st c = .ok (some (sid, st2))) :
    st2.accounts = st.accounts := by
  simp only [resolveSymbol] at h
  split at h
  · split at h
    · rename_i hs
      simp only [Except.ok.injEq, Option.some.injEq, Prod.mk.injEq] at h
      rw [← h.2]
      exact get_or_create_symbol_accounts hs
    · exact absurd h (by simp)
  · simp only [Except.ok.injEq, Option.some.injEq, Prod.mk.injEq] at h
    rw [← h.2]

/-- A successfully processed row never touches the accounts table. -/
theorem saveRow_accounts {st : DbState} {c : Candidate} {st2 : DbState}
    (h : saveRow st c = .ok (some st2)) : st2.accounts = st.accounts := by
  simp only [saveRow] at h
  split at h
  · exact absurd h (by simp)
  · split at h
    · exact absurd h (by simp)
    · split at h
      · exact absurd h (by simp)
      · exact absurd h (by simp)
      · rename_i sid st3 heq
        split at h
        · simp only [Except.ok.injEq, Option.some.injEq] at h
          rw [← h]
          simpa using resolveSymbol_accounts heq
        · exact absurd h (by simp)

/-- Skipping rows with errors is the same as filtering them out of the
batch before the loop. -/
theorem saveLoop_filter_eq (rows : List Candidate) :
    ∀ st : DbState, saveLoop st rows = saveLoop st (rows.filter commitEligible) := by
  induction rows with
  | nil => intro st; rfl
  | cons c rest ih =>
    intro st
    by_cases hc : commitEligible c
    · rw [List.filter_cons_of_pos hc]
      simp only [saveLoop, if_pos hc]
      cases saveRow st c with
      | error e => rfl
      | ok o => cases o with
        | none => exact ih st
        | some st2 => exact ih st2
    · rw [List.filter_cons_of_neg hc]
      simp only [saveLoop, if_neg hc]
      exact ih st

/-- If some error-free row of the batch names an account unknown to the
database, the loop raises (whatever happens on earlier rows). -/
theorem saveLoop_error_of_unknown_account (rows : List Candidate) :
    ∀ st db : DbState, st.accounts = db.accounts →
    ∀ r ∈ rows, r.errors = [] →
    ∀ an, r.account_name = some an →
    get_account_by_name db an = none →
    ∃ e, saveLoop st rows = .error e := by
  induction rows with
  | nil => intro _ _ _ r hr; exact absurd hr (by simp)
  | cons c rest ih =>
    intro st db hacc r hr he an han hnone
    rcases List.mem_cons.mp hr with rfl | hr
    · have hel : commitEligible r := by simp [commitEligible, he]
      simp only [saveLoop, if_pos hel]
      have hlook : get_account_by_name st an = none := by
        simp only [get_account_by_name] at hnone ⊢
        rw [hacc]
        exact hnone
      simp only [saveRow, han, hlook]
      exact ⟨_, rfl⟩
    · by_cases hc : commitEligible c
      · simp only [saveLoop, if_pos hc]
        cases hsr : saveRow st c with
        | error e => exact ⟨e, rfl⟩
        | ok o => cases o with
          | none => exact ih st db hacc r hr he an han hnone
          | some st2 =>
            exact ih st2 db ((saveRow_accounts hsr).trans hacc) r hr he an
              han hnone
      · simp only [saveLoop, if_neg hc]
        exact ih st db hacc r hr he an han hnone

/-- C4: `save_transactions` silently drops every row with a non-empty
error list (committing a batch is the same as committing its error-free
subset), and if any processed row names an unknown account the whole
operation raises and leaves the stored state exactly as it was: all or
nothing. -/
theorem c4_commit_skips_errors_and_rolls_back (rows : List Candidate)
    (db : DbState) (r : Candidate) (an : String) (hr : r ∈ rows)
    (he : r.errors = []) (han : r.account_name = some an)
    (hunknown : get_account_by_name db an = none) :
    save_transactions rows db =
        save_transactions (rows.filter commitEligible) db ∧
      ∃ e, save_transactions rows db = (db, some e) := by
  constructor
  · simp only [save_transactions, saveLoop_filter_eq rows db]
  · obtain ⟨e, herr⟩ :=
      saveLoop_error_of_unknown_account rows db db rfl r hr he an han
        hunknown
    exact ⟨e, by simp only [save_transactions, herr]⟩

/-- C4 witness: a batch of one errored row and one clean row naming an
account the store does not contain commits nothing and reports the
failure. -/
theorem c4_commit_skips_errors_and_rolls_back_witness :
    (save_transactions
        [{ errors := ["bad"], account_name := some "Main" },
         { transaction_type := some TransactionType.deposit,
           transaction_date := some ⟨2024, 1, 1⟩, amount := some 5,
           account_name := some "Ghost" }]
        ⟨[⟨1, "Main"⟩], [], [], 10⟩ =
      save_transactions
        ([{ errors := ["bad"], account_name := some "Main" },
          { transaction_type := some TransactionType.deposit,
            transaction_date := some ⟨2024, 1, 1⟩, amount := some 5,
            account_name := some "Ghost" }].filter commitEligible)
        ⟨[⟨1, "Main"⟩], [], [], 10⟩) ∧
      ∃ e,
        save_transactions
            [{ errors := ["bad"], account_name := some "Main" },
             { transaction_type := some TransactionType.deposit,
               transaction_date := some ⟨2024, 1, 1⟩, amount := some 5,
               account_name := some "Ghost" }]
            ⟨[⟨1, "Main"⟩], [], [], 10⟩ =
          (⟨[⟨1, "Main"⟩], [], [], 10⟩, some e) :=
  c4_commit_skips_errors_and_rolls_back _ _
    { transaction_type := some TransactionType.deposit,
      transaction_date := some ⟨2024, 1, 1⟩, amount := some 5,
      account_name := some "Ghost" }
    "Ghost" (by decide) (by decide) (by decide) (by decide)

/-- C7 witness: a bare `"call"` description is detected as an option and
receives the CALL default. -/
theorem c7_option_type_defaults_to_call_witness :
    (parse_option_details "" "call").option_type.isSome :=
  c7_option_type_defaults_to_call "" "call" (by decide)

/-- Whether some pattern of field `f` matches the (lowercased) header. -/
def fieldMatchesB (f : String) (h : String) : Bool :=
  commonPatterns.any
    (fun p => p.1 = f && p.2.any (fun pt => sIn pt (pyLower h)))

/-- `find?` over the overwrite map of `mSet` when the key is present. -/
theorem find?_mSet_map (m : Mappings) (f h : String)
    (hp : (m.find? (fun p => p.1 = f)).isSome) :
    (m.map (fun p => if p.1 = f then (f, h) else p)).find?
      (fun p => p.1 = f) = some (f, h) := by
  induction m with
  | nil => simp at hp
  | cons q rest ih =>
    by_cases hq : q.1 = f
    · simp only [List.map_cons, if_pos hq]
      exact List.find?_cons_of_pos _ (by simp)
    · simp only [List.map_cons, if_neg hq]
      rw [List.find?_cons_of_neg _ (by simp [hq])]
      refine ih ?_
      rwa [List.find?_cons_of_neg _ (by simp [hq])] at hp

theorem mGet_mSet_self (m : Mappings) (f h : String) :
    mGet (mSet m f h) f = some h := by
  simp only [mSet]
  split
  · rename_i hf
    simp only [mGet, find?_mSet_map m f h hf]
    rfl
  · rename_i hf
    have hnone : m.find? (fun p => p.1 = f) = none := by
      cases hfind : m.find? (fun p => p.1 = f) with
      | none => rfl
      | some p => exact absurd (by simp [hfind]) hf
    simp only [mGet, List.find?_append, hnone, Option.none_or]
    rw [List.find?_cons_of_pos _ (by simp)]
    rfl

theorem mGet_mSet_ne (m : Mappings) (f h f' : String) (hne : f' ≠ f) :
    mGet (mSet m f h) f' = mGet m f' := by
  simp only [mSet]
  split
  · simp only [mGet, List.find?_map]
    have hpred : ((fun (p : String × String) => decide (p.1 = f')) ∘
        (fun p => if p.1 = f then (f, h) else p)) =
        (fun (p : String × String) => decide (p.1 = f')) := by
      funext p
      by_cases hp : p.1 = f <;> simp [hp]
    rw [hpred]
    cases hfind : m.find? (fun p => decide (p.1 = f')) with
    | none => simp
    | some q =>
      have hq' : q.1 = f' := by simpa using List.find?_some hfind
      have hqf : ¬ q.1 = f := fun hc => hne (hq' ▸ hc ▸ rfl)
      simp [hqf]
  · simp only [mGet, List.find?_append]
    rw [show (List.find? (fun p => decide (p.1 = f')) [(f, h)]) = none by
      simp [List.find?, Ne.symm hne]]
    simp

/-- The description-like pass never overwrites an existing mapping. -/
theorem notesPass_preserves (headers : List String) :
    ∀ m f h, mGet m f = some h → mGet (notesPass headers m) f = some h := by
  induction headers with
  | nil => intro m f h hm; exact hm
  | cons hd rest ih =>
    intro m f h hm
    simp only [notesPass]
    split
    · split
      · rename_i hnone
        by_cases hf : f = "notes"
        · rw [hf] at hm; rw [hm] at hnone; exact absurd hnone (by simp)
        · rw [mGet_mSet_ne _ _ _ _ hf]; exact hm
      · exact ih m f h hm
    · exact ih m f h hm

/-- The inner pattern loop never overwrites an existing mapping. -/
theorem patternPassField_preserves (pats : List (String × List String)) :
    ∀ hl hd m f h, mGet m f = some h →
      mGet (patternPassField pats hl hd m) f = some h := by
  induction pats with
  | nil => intro _ _ m f h hm; exact hm
  | cons p rest ih =>
    intro hl hd m f h hm
    simp only [patternPassField]
    split
    · split
      · rename_i hnone
        by_cases hf : f = p.1
        · rw [hf] at hm; rw [hm] at hnone; exact absurd hnone (by simp)
        · rw [mGet_mSet_ne _ _ _ _ hf]; exact hm
      · exact ih hl hd m f h hm
    · exact ih hl hd m f h hm

/-- The header-pattern pass never overwrites an existing mapping. -/
theorem patternPass_preserves (headers : List String) :
    ∀ m f h, mGet m f = some h → mGet (patternPass headers m) f = some h := by
  induction headers with
  | nil => intro m f h hm; exact hm
  | cons hd rest ih =>
    intro m f h hm
    simp only [patternPass]
    split
    · exact ih _ f h (patternPassField_preserves _ _ _ m f h hm)
    · exact ih m f h hm

/-- The symbol-inference pass never overwrites an existing mapping. -/
theorem symbolPass_preserves (headers : List String) (previews : List RawRow)
    (m : Mappings) (f h : String) (hm : mGet m f = some h) :
    mGet (symbolPass headers previews m) f = some h := by
  simp only [symbolPass]
  split
  · rename_i hcond
    split
    · by_cases hf : f = "symbol"
      · rw [hf] at hm; rw [hm] at hcond; exact absurd hcond.2 (by simp)
      · rw [mGet_mSet_ne _ _ _ _ hf]; exact hm
    · exact hm
  · exact hm

/-- The action-inference pass never overwrites an existing mapping. -/
theorem actionPass_preserves (headers : List String) (previews : List RawRow)
    (m : Mappings) (f h : String) (hm : mGet m f = some h) :
    mGet (actionPass headers previews m) f = some h := by
  simp only [actionPass]
  split
  · rename_i hcond
    split
    · by_cases hf : f = "action"
      · rw [hf] at hm; rw [hm] at hcond; exact absurd hcond.2 (by simp)
      · rw [mGet_mSet_ne _ _ _ _ hf]; exact hm
    · exact hm
  · exact hm

/-- One header that is still unmatched for `f` either assigns some other
field or leaves `f` unmapped. -/
theorem patternPassField_not_set (pats : List (String × List String)) :
    ∀ hl hd m f,
      (∀ p ∈ pats, p.1 = f → ¬ p.2.any (fun pt => sIn pt hl)) →
      mGet m f = none →
      mGet (patternPassField pats hl hd m) f = none := by
  induction pats with
  | nil => intro _ _ m f _ hm; exact hm
  | cons p rest ih =>
    intro hl hd m f hno hm
    simp only [patternPassField]
    split
    · rename_i hmatch
      split
      · by_cases hf : f = p.1
        · exact absurd hmatch (hno p (by simp) hf.symm)
        · rw [mGet_mSet_ne _ _ _ _ hf]; exact hm
      · exact ih hl hd m f (fun q hq => hno q (by simp [hq])) hm
    · exact ih hl hd m f (fun q hq => hno q (by simp [hq])) hm

/-- A header whose pattern lists match only field `f` assigns `f` when it
is still unmapped. -/
theorem patternPassField_sets (pats : List (String × List String)) :
    ∀ hl hd m f,
      (∃ p ∈ pats, p.1 = f ∧ p.2.any (fun pt => sIn pt hl)) →
      (∀ p ∈ pats, p.1 ≠ f → ¬ p.2.any (fun pt => sIn pt hl)) →
      mGet m f = none →
      mGet (patternPassField pats hl hd m) f = some hd := by
  induction pats with
  | nil => intro _ _ m f hex _ _; simp at hex
  | cons p rest ih =>
    intro hl hd m f hex hno hm
    simp only [patternPassField]
    split
    · rename_i hmatch
      by_cases hf : p.1 = f
      · rw [if_pos (hf ▸ hm)]
        exact hf ▸ mGet_mSet_self m p.1 hd
      · exact absurd hmatch (hno p (by simp) hf)
    · rename_i hmatch
      rcases hex with ⟨q, hq, hqf, hqm⟩
      rcases List.mem_cons.mp hq with rfl | hq
      · exact absurd hqm hmatch
      · exact ih hl hd m f ⟨q, hq, hqf, hqm⟩
          (fun r hr => hno r (by simp [hr])) hm

/-- First-match rule for the header-pattern pass, for a header that
matches no other field: the first valid header matching `f` wins `f` when
`f` is unmapped. -/
theorem patternPass_first_match (headers : List String) :
    ∀ m f h, mGet m f = none →
      headers.find? (fun h' => headerValid h' && fieldMatchesB f h') =
        some h →
      (∀ p ∈ commonPatterns, p.1 ≠ f →
        ¬ p.2.any (fun pt => sIn pt (pyLower h))) →
      mGet (patternPass headers m) f = some h := by
  induction headers with
  | nil => intro m f h _ hfind _; simp at hfind
  | cons hd rest ih =>
    intro m f h hun hfind honly
    by_cases hpred : (headerValid hd && fieldMatchesB f hd) = true
    · rw [@List.find?_cons_of_pos String
        (fun h' => headerValid h' && fieldMatchesB f h') hd rest hpred]
        at hfind
      obtain rfl : hd = h := by simpa using hfind
      rw [Bool.and_eq_true] at hpred
      simp only [patternPass, if_pos hpred.1]
      refine patternPass_preserves rest _ f _ ?_
      refine patternPassField_sets _ _ _ _ _ ?_ ?_ hun
      · simpa [fieldMatchesB, List.any_eq_true] using hpred.2
      · exact fun p hp hpf => honly p hp hpf
    · rw [@List.find?_cons_of_neg String
        (fun h' => headerValid h' && fieldMatchesB f h') hd rest hpred]
        at hfind
      simp only [patternPass]
      split
      · rename_i hvalid
        have hnm : fieldMatchesB f hd = false := by
          cases hfm : fieldMatchesB f hd with
          | false => rfl
          | true => exact absurd (by rw [hvalid, hfm]; rfl) hpred
        refine ih _ f h ?_ hfind honly
        refine patternPassField_not_set _ _ _ _ _ ?_ hun
        intro p hp hpf
        intro hany
        have : fieldMatchesB f hd = true := by
          simp only [fieldMatchesB, List.any_eq_true]
          exact ⟨p, hp, by simp [hpf, hany]⟩
        rw [this] at hnm
        exact absurd hnm (by simp)
      · exact ih m f h hun hfind honly

/-- C9, amended: (i) none of the four heuristic passes, nor their
composition, ever overwrites an existing mapping; (ii) within one field,
the first valid header in file order matching that field's patterns wins
it whenever the field is unmapped and the header matches no other field's
pattern list (a header matching several fields is captured by the
earliest-ordered unmapped one, see the counterexample); (iii) the broker
fingerprint pass may overwrite previously guessed mappings on a signature
match. -/
theorem c9_heuristics_never_overwrite (headers : List String)
    (previews : List RawRow) (m : Mappings) (f h : String)
    (hm : mGet m f = some h) (f2 h2 : String) (hun : mGet m f2 = none)
    (hfind : headers.find?
        (fun h' => headerValid h' && fieldMatchesB f2 h') = some h2)
    (honly : ∀ p ∈ commonPatterns, p.1 ≠ f2 →
      ¬ p.2.any (fun pt => sIn pt (pyLower h2))) :
    (mGet (notesPass headers m) f = some h ∧
      mGet (patternPass headers m) f = some h ∧
      mGet (symbolPass headers previews m) f = some h ∧
      mGet (actionPass headers previews m) f = some h ∧
      mGet (actionPass headers previews (symbolPass headers previews
        (patternPass headers (notesPass headers m)))) f = some h) ∧
      mGet (patternPass headers m) f2 = some h2 ∧
      mGet (detect_special_formats
          ["Date", "Symbol", "Description", "Quantity", "Price", "Amount"]
          [] [("action", "Foo")]) "action" = some "Description" := by
  refine ⟨⟨notesPass_preserves headers m f h hm,
      patternPass_preserves headers m f h hm,
      symbolPass_preserves headers previews m f h hm,
      actionPass_preserves headers previews m f h hm, ?_⟩,
    patternPass_first_match headers m f2 h2 hun hfind honly, by decide⟩
  exact actionPass_preserves _ _ _ f h (symbolPass_preserves _ _ _ f h
    (patternPass_preserves _ _ f h (notesPass_preserves _ _ f h hm)))

/-- C9 counterexample to the unrestricted tie-break rule: with headers
`["Amount", "Total"]`, the header `"Amount"` is valid and matches the
`amount` pattern list and comes first in file order, yet the pass maps
`amount` to `"Total"` — `"Amount"` is captured by the earlier-ordered
unmapped field `quantity`, whose pattern list also contains `"amount"`. -/
theorem c9_first_match_counterexample :
    headerValid "Amount" = true ∧ fieldMatchesB "amount" "Amount" = true ∧
      mGet (patternPass ["Amount", "Total"] []) "amount" = some "Total" ∧
      mGet (patternPass ["Amount", "Total"] []) "quantity" =
        some "Amount" := by
  refine ⟨by decide, by decide, by decide, by decide⟩

/-- C9 witness: a mapped `date` field survives every heuristic pass; the
header `"Trade Date"` matches only the `date` patterns and wins it. -/
theorem c9_heuristics_never_overwrite_witness :
    (mGet (notesPass ["Trade Date", "Qty"] [("symbol", "S")]) "symbol" =
        some "S" ∧
      mGet (patternPass ["Trade Date", "Qty"] [("symbol", "S")]) "symbol" =
        some "S" ∧
      mGet (symbolPass ["Trade Date", "Qty"] [] [("symbol", "S")]) "symbol" =
        some "S" ∧
      mGet (actionPass ["Trade Date", "Qty"] [] [("symbol", "S")]) "symbol" =
        some "S" ∧
      mGet (actionPass ["Trade Date", "Qty"] []
        (symbolPass ["Trade Date", "Qty"] []
          (patternPass ["Trade Date", "Qty"]
            (notesPass ["Trade Date", "Qty"] [("symbol", "S")]))))
        "symbol" = some "S") ∧
      mGet (patternPass ["Trade Date", "Qty"] [("symbol", "S")]) "date" =
        some "Trade Date" ∧
      mGet (detect_special_formats
          ["Date", "Symbol", "Description", "Quantity", "Price", "Amount"]
          [] [("action", "Foo")]) "action" = some "Description" :=
  c9_heuristics_never_overwrite ["Trade Date", "Qty"] []
    [("symbol", "S")] "symbol" "S" (by decide) "date" "Trade Date"
    (by decide) (by decide) (by decide)

/-! Field-stability lemmas for the row pipeline: which steps leave which
candidate fields untouched, and how errors only accumulate. -/

theorem stepDate_amount (cm : ColMap) (row : RawRow) (c : Candidate) :
    (stepDate cm row c).amount = c.amount := by
  simp only [stepDate, addErr]; (repeat' split) <;> rfl

theorem stepDate_price (cm : ColMap) (row : RawRow) (c : Candidate) :
    (stepDate cm row c).price = c.price := by
  simp only [stepDate, addErr]; (repeat' split) <;> rfl

theorem stepSymbolOpt_amount (cm : ColMap) (row : RawRow) (c : Candidate) :
    (stepSymbolOpt cm row c).amount = c.amount := by
  simp only [stepSymbolOpt]; (repeat' split) <;> rfl

theorem stepSymbolOpt_price (cm : ColMap) (row : RawRow) (c : Candidate) :
    (stepSymbolOpt cm row c).price = c.price := by
  simp only [stepSymbolOpt]; (repeat' split) <;> rfl

theorem stepSymbolOpt_quantity (cm : ColMap) (row : RawRow) (c : Candidate) :
    (stepSymbolOpt cm row c).quantity = c.quantity := by
  simp only [stepSymbolOpt]; (repeat' split) <;> rfl

theorem stepSymbolOpt_transaction_type (cm : ColMap) (row : RawRow)
    (c : Candidate) :
    (stepSymbolOpt cm row c).transaction_type = c.transaction_type := by
  simp only [stepSymbolOpt]; (repeat' split) <;> rfl

theorem stepSymbolWarn_amount (c : Candidate) :
    (stepSymbolWarn c).amount = c.amount := by
  simp only [stepSymbolWarn, addWarn]; (repeat' split) <;> rfl

theorem stepSymbolWarn_price (c : Candidate) :
    (stepSymbolWarn c).price = c.price := by
  simp only [stepSymbolWarn, addWarn]; (repeat' split) <;> rfl

theorem stepSymbolWarn_quantity (c : Candidate) :
    (stepSymbolWarn c).quantity = c.quantity := by
  simp only [stepSymbolWarn, addWarn]; (repeat' split) <;> rfl

theorem stepSymbolWarn_transaction_type (c : Candidate) :
    (stepSymbolWarn c).transaction_type = c.transaction_type := by
  simp only [stepSymbolWarn, addWarn]; (repeat' split) <;> rfl

theorem stepSymbolWarn_errors (c : Candidate) :
    (stepSymbolWarn c).errors = c.errors := by
  simp only [stepSymbolWarn, addWarn]; (repeat' split) <;> rfl

theorem stepInstr_amount (cm : ColMap) (row : RawRow) (c : Candidate) :
    (stepInstr cm row c).amount = c.amount := by
  simp only [stepInstr, addErr, addWarn]; (repeat' split) <;> rfl

theorem stepInstr_price (cm : ColMap) (row : RawRow) (c : Candidate) :
    (stepInstr cm row c).price = c.price := by
  simp only [stepInstr, addErr, addWarn]; (repeat' split) <;> rfl

theorem stepInstr_quantity (cm : ColMap) (row : RawRow) (c : Candidate) :
    (stepInstr cm row c).quantity = c.quantity := by
  simp only [stepInstr, addErr, addWarn]; (repeat' split) <;> rfl

theorem stepInstr_transaction_type (cm : ColMap) (row : RawRow)
    (c : Candidate) :
    (stepInstr cm row c).transaction_type = c.transaction_type := by
  simp only [stepInstr, addErr, addWarn]; (repeat' split) <;> rfl

theorem stepAccount_amount (cm : ColMap) (row : RawRow) (c : Candidate) :
    (stepAccount cm row c).amount = c.amount := by
  simp only [stepAccount, addErr]; (repeat' split) <;> rfl

theorem stepAccount_price (cm : ColMap) (row : RawRow) (c : Candidate) :
    (stepAccount cm row c).price = c.price := by
  simp only [stepAccount, addErr]; (repeat' split) <;> rfl

theorem stepAccount_quantity (cm : ColMap) (row : RawRow) (c : Candidate) :
    (stepAccount cm row c).quantity = c.quantity := by
  simp only [stepAccount, addErr]; (repeat' split) <;> rfl

theorem stepAccount_transaction_type (cm : ColMap) (row : RawRow)
    (c : Candidate) :
    (stepAccount cm row c).transaction_type = c.transaction_type := by
  simp only [stepAccount, addErr]; (repeat' split) <;> rfl

theorem stepPrice_amount (cm : ColMap) (row : RawRow) (c : Candidate) :
    (stepPrice cm row c).amount = c.amount := by
  simp only [stepPrice]; (repeat' split) <;> rfl

theorem stepPrice_quantity (cm : ColMap) (row : RawRow) (c : Candidate) :
    (stepPrice cm row c).quantity = c.quantity := by
  simp only [stepPrice]; (repeat' split) <;> rfl

theorem stepPrice_transaction_type (cm : ColMap) (row : RawRow)
    (c : Candidate) :
    (stepPrice cm row c).transaction_type = c.transaction_type := by
  simp only [stepPrice]; (repeat' split) <;> rfl

theorem stepPrice_errors (cm : ColMap) (row : RawRow) (c : Candidate) :
    (stepPrice cm row c).errors = c.errors := by
  simp only [stepPrice]; (repeat' split) <;> rfl

theorem stepPrice_unmapped (cm : ColMap) (row : RawRow) (c : Candidate)
    (h : colCell cm row "price" = none) : stepPrice cm row c = c := by
  unfold stepPrice; rw [h]

theorem stepPrice_mapped (cm : ColMap) (row : RawRow) (c : Candidate)
    (pv : String) (h : colCell cm row "price" = some pv) :
    (stepPrice cm row c).price = parse_decimal pv := by
  unfold stepPrice; rw [h]

theorem stepFees_amount (cm : ColMap) (row : RawRow) (c : Candidate) :
    (stepFees cm row c).amount = c.amount := by
  simp only [stepFees]; (repeat' split) <;> rfl

theorem stepFees_price (cm : ColMap) (row : RawRow) (c : Candidate) :
    (stepFees cm row c).price = c.price := by
  simp only [stepFees]; (repeat' split) <;> rfl

theorem stepFees_quantity (cm : ColMap) (row : RawRow) (c : Candidate) :
    (stepFees cm row c).quantity = c.quantity := by
  simp only [stepFees]; (repeat' split) <;> rfl

theorem stepFees_transaction_type (cm : ColMap) (row : RawRow)
    (c : Candidate) :
    (stepFees cm row c).transaction_type = c.transaction_type := by
  simp only [stepFees]; (repeat' split) <;> rfl

theorem stepFees_errors (cm : ColMap) (row : RawRow) (c : Candidate) :
    (stepFees cm row c).errors = c.errors := by
  simp only [stepFees]; (repeat' split) <;> rfl

theorem stepJournal_amount (jd : String → Bool) (cm : ColMap) (row : RawRow)
    (c : Candidate) : (stepJournal jd cm row c).amount = c.amount := by
  simp only [stepJournal, addErr]; (repeat' split) <;> rfl

theorem stepJournal_price (jd : String → Bool) (cm : ColMap) (row : RawRow)
    (c : Candidate) : (stepJournal jd cm row c).price = c.price := by
  simp only [stepJournal, addErr]; (repeat' split) <;> rfl

theorem stepJournal_quantity (jd : String → Bool) (cm : ColMap)
    (row : RawRow) (c : Candidate) :
    (stepJournal jd cm row c).quantity = c.quantity := by
  simp only [stepJournal, addErr]; (repeat' split) <;> rfl

theorem stepJournal_transaction_type (jd : String → Bool) (cm : ColMap)
    (row : RawRow) (c : Candidate) :
    (stepJournal jd cm row c).transaction_type = c.transaction_type := by
  simp only [stepJournal, addErr]; (repeat' split) <;> rfl

theorem stepJournal_fees (jd : String → Bool) (cm : ColMap) (row : RawRow)
    (c : Candidate) : (stepJournal jd cm row c).fees = c.fees := by
  simp only [stepJournal, addErr]; (repeat' split) <;> rfl

theorem stepNotes_amount (cm : ColMap) (row : RawRow) (c : Candidate) :
    (stepNotes cm row c).amount = c.amount := by
  simp only [stepNotes]; (repeat' split) <;> rfl

theorem stepNotes_price (cm : ColMap) (row : RawRow) (c : Candidate) :
    (stepNotes cm row c).price = c.price := by
  simp only [stepNotes]; (repeat' split) <;> rfl

theorem stepNotes_quantity (cm : ColMap) (row : RawRow) (c : Candidate) :
    (stepNotes cm row c).quantity = c.quantity := by
  simp only [stepNotes]; (repeat' split) <;> rfl

theorem stepNotes_transaction_type (cm : ColMap) (row : RawRow)
    (c : Candidate) :
    (stepNotes cm row c).transaction_type = c.transaction_type := by
  simp only [stepNotes]; (repeat' split) <;> rfl

theorem stepNotes_fees (cm : ColMap) (row : RawRow) (c : Candidate) :
    (stepNotes cm row c).fees = c.fees := by
  simp only [stepNotes]; (repeat' split) <;> rfl

theorem stepNotes_errors (cm : ColMap) (row : RawRow) (c : Candidate) :
    (stepNotes cm row c).errors = c.errors := by
  simp only [stepNotes]; (repeat' split) <;> rfl

theorem stepAmount_price (cm : ColMap) (row : RawRow) (c : Candidate) :
    (stepAmount cm row c).price = c.price := by
  simp only [stepAmount]; (repeat' split) <;> rfl

theorem stepAmount_errors (cm : ColMap) (row : RawRow) (c : Candidate) :
    (stepAmount cm row c).errors = c.errors := by
  simp only [stepAmount]; (repeat' split) <;> rfl

theorem stepChecks_amount (c : Candidate) :
    (stepChecks c).amount = c.amount := by
  simp only [stepChecks, addErr]; (repeat' split) <;> rfl

theorem stepChecks_price (c : Candidate) :
    (stepChecks c).price = c.price := by
  simp only [stepChecks, addErr]; (repeat' split) <;> rfl

theorem stepAmount_quantity (cm : ColMap) (row : RawRow) (c : Candidate) :
    (stepAmount cm row c).quantity = c.quantity := by
  simp only [stepAmount]; (repeat' split) <;> rfl

theorem stepAmount_fees (cm : ColMap) (row : RawRow) (c : Candidate) :
    (stepAmount cm row c).fees = c.fees := by
  simp only [stepAmount]; (repeat' split) <;> rfl

theorem stepAmount_transaction_type (cm : ColMap) (row : RawRow)
    (c : Candidate) :
    (stepAmount cm row c).transaction_type = c.transaction_type := by
  simp only [stepAmount]; (repeat' split) <;> rfl

theorem stepChecks_quantity (c : Candidate) :
    (stepChecks c).quantity = c.quantity := by
  simp only [stepChecks, addErr]; (repeat' split) <;> rfl

theorem stepChecks_fees (c : Candidate) :
    (stepChecks c).fees = c.fees := by
  simp only [stepChecks, addErr]; (repeat' split) <;> rfl

theorem stepChecks_transaction_type (c : Candidate) :
    (stepChecks c).transaction_type = c.transaction_type := by
  simp only [stepChecks, addErr]; (repeat' split) <;> rfl

/-- The expiration forcing (lines 81-83): an action containing `expir` or
`worthless` zeroes price and amount in this step. -/
theorem stepAction_expir (store : MapStore) (cm : ColMap) (row : RawRow)
    (c : Candidate) (v : String) (ha : colCell cm row "action" = some v)
    (hx : (sIn "expir" (pyLower (pyStrip v)) ||
      sIn "worthless" (pyLower (pyStrip v))) = true) :
    (stepAction store cm row c).price = some 0 ∧
      (stepAction store cm row c).amount = some 0 := by
  simp [stepAction, ha, hx]

/-- Without the expiration forcing, the action step leaves price and
amount unchanged. -/
theorem stepAction_no_expir (store : MapStore) (cm : ColMap) (row : RawRow)
    (c : Candidate) (v : String) (ha : colCell cm row "action" = some v)
    (hx : (sIn "expir" (pyLower (pyStrip v)) ||
      sIn "worthless" (pyLower (pyStrip v))) = false) :
    (stepAction store cm row c).price = c.price ∧
      (stepAction store cm row c).amount = c.amount := by
  simp only [stepAction, ha, hx, Bool.false_eq_true, if_false]
  constructor <;> (split <;> rfl)

/-- The quantity recorded by the action step is the parse of the mapped
quantity cell. -/
theorem stepAction_quantity (store : MapStore) (cm : ColMap) (row : RawRow)
    (c : Candidate) :
    (stepAction store cm row c).quantity =
      (match colCell cm row "quantity" with
       | some qv => parse_decimal qv
       | none => none) := by
  simp only [stepAction, addErr]
  cases hcell : colCell cm row "action" with
  | none => rfl
  | some v =>
    simp only [apply_ite (fun x : Candidate => x.quantity)]
    simp

/-- An explicitly mapped, parseable amount cell wins unconditionally. -/
theorem stepAmount_explicit (cm : ColMap) (row : RawRow) (c : Candidate)
    (av : String) (a : ℚ) (ha : colCell cm row "amount" = some av)
    (hp : parse_decimal av = some a) :
    (stepAmount cm row c).amount = some a := by
  simp only [stepAmount, ha, hp]
  split
  · rename_i hcond
    exact absurd hcond.1 (by simp)
  · rfl

/-- With no usable explicit amount, an amount already carried by the row
is kept. -/
theorem stepAmount_keeps (cm : ColMap) (row : RawRow) (c : Candidate)
    (a : ℚ)
    (hne : (colCell cm row "amount").bind parse_decimal = none)
    (hc : c.amount = some a) : (stepAmount cm row c).amount = some a := by
  simp only [stepAmount]
  cases hcell : colCell cm row "amount" with
  | none =>
    simp only
    split
    · rename_i hcond; rw [hc] at hcond; exact absurd hcond.1 (by simp)
    · exact hc
  | some av =>
    rw [hcell] at hne
    simp only [Option.some_bind] at hne
    simp only [hne]
    split
    · rename_i hcond; rw [hc] at hcond; exact absurd hcond.1 (by simp)
    · exact hc

/-- With no usable explicit amount and none carried, the amount becomes
whatever `calculate_amount` yields for the row's resolved type. -/
theorem stepAmount_computes (cm : ColMap) (row : RawRow) (c : Candidate)
    (tt : TransactionType)
    (hne : (colCell cm row "amount").bind parse_decimal = none)
    (hc : c.amount = none) (htt : c.transaction_type = some tt) :
    (stepAmount cm row c).amount =
      (match calculate_amount c.quantity c.price c.fees (ttValue tt) with
       | some ca => some ca
       | none => none) := by
  simp only [stepAmount]
  cases hcell : colCell cm row "amount" with
  | none =>
    simp only
    rw [if_pos (by simp [hc, htt])]
    simp only [htt]
    split <;> rename_i heq <;> simp [heq, hc]
  | some av =>
    rw [hcell] at hne
    simp only [Option.some_bind] at hne
    simp only [hne]
    rw [if_pos (by simp [hc, htt])]
    simp only [htt]
    split <;> rename_i heq <;> simp [heq, hc]

/-- C8, amended: a row whose action text contains `expir` or `worthless`
gets price 0 and amount 0, provided no mapped price cell is present and
no mapped amount cell parses — an explicitly mapped price or amount value
overwrites the forced zeros (see the counterexample). -/
theorem c8_expired_rows_zeroed (store : MapStore) (jd : String → Bool)
    (cm : ColMap) (row : RawRow) (v : String)
    (ha : colCell cm row "action" = some v)
    (hx : (sIn "expir" (pyLower (pyStrip v)) ||
      sIn "worthless" (pyLower (pyStrip v))) = true)
    (hp : colCell cm row "price" = none)
    (hm : (colCell cm row "amount").bind parse_decimal = none) :
    (import_transaction_row store jd cm row).price = some 0 ∧
      (import_transaction_row store jd cm row).amount = some 0 := by
  have h2 := stepAction_expir store cm row (stepDate cm row initCandidate)
    v ha hx
  unfold import_transaction_row
  constructor
  · rw [stepChecks_price, stepAmount_price, stepNotes_price,
      stepJournal_price, stepFees_price, stepPrice_unmapped _ _ _ hp,
      stepAccount_price, stepInstr_price, stepSymbolWarn_price,
      stepSymbolOpt_price]
    exact h2.1
  · rw [stepChecks_amount]
    apply stepAmount_keeps _ _ _ _ hm
    rw [stepNotes_amount, stepJournal_amount, stepFees_amount,
      stepPrice_unmapped _ _ _ hp, stepAccount_amount, stepInstr_amount,
      stepSymbolWarn_amount, stepSymbolOpt_amount]
    exact h2.2

/-- C8 counterexample to the unconditional claim: an `expired` row whose
price and amount columns are mapped to parseable cells ends with those
explicit values, not zero. -/
theorem c8_expired_rows_zeroed_counterexample :
    sIn "expir" (pyLower (pyStrip "expired")) = true ∧
      (import_transaction_row defaultMappings (fun _ => false)
          [("date", "D"), ("action", "A"), ("account_name", "N"),
           ("price", "P"), ("amount", "Am")]
          [("D", "2024-01-02"), ("A", "expired"), ("N", "X"),
           ("P", "1.23"), ("Am", "4.56")]).price = some (123 / 100) ∧
      (import_transaction_row defaultMappings (fun _ => false)
          [("date", "D"), ("action", "A"), ("account_name", "N"),
           ("price", "P"), ("amount", "Am")]
          [("D", "2024-01-02"), ("A", "expired"), ("N", "X"),
           ("P", "1.23"), ("Am", "4.56")]).amount = some (114 / 25) ∧
      some (123 / 100 : ℚ) ≠ some (0 : ℚ) ∧
      some (114 / 25 : ℚ) ≠ some (0 : ℚ) := by
  refine ⟨by decide, by decide, by decide, by decide, by decide⟩

/-- C8 witness: the same `expired` row without mapped price/amount columns
is zeroed. -/
theorem c8_expired_rows_zeroed_witness :
    (import_transaction_row defaultMappings (fun _ => false)
        [("date", "D"), ("action", "A"), ("account_name", "N")]
        [("D", "2024-01-02"), ("A", "expired"), ("N", "X")]).price =
        some 0 ∧
      (import_transaction_row defaultMappings (fun _ => false)
        [("date", "D"), ("action", "A"), ("account_name", "N")]
        [("D", "2024-01-02"), ("A", "expired"), ("N", "X")]).amount =
        some 0 :=
  c8_expired_rows_zeroed defaultMappings (fun _ => false)
    [("date", "D"), ("action", "A"), ("account_name", "N")]
    [("D", "2024-01-02"), ("A", "expired"), ("N", "X")] "expired"
    (by decide) (by decide) (by decide) (by decide)

theorem tmAddError_amount (c : Candidate) (e : String) :
    (tmAddError c e).amount = c.amount := by
  simp only [tmAddError]; split <;> rfl

/-- Re-validation recomputes only the error list; the amount is kept. -/
theorem validate_row_amount (c : Candidate) :
    (validate_row c).amount = c.amount := rfl

/-- `ttValue` sends distinct constructors to distinct strings; a type that
is neither BUY nor SELL has a value string that is neither `"buy"` nor
`"sell"`. -/
theorem ttValue_not_trade (tt : TransactionType) (hb : tt ≠ .buy)
    (hs : tt ≠ .sell) : ttValue tt ≠ "buy" ∧ ttValue tt ≠ "sell" := by
  cases tt <;> simp_all [ttValue]

/-- The final checks append the missing-amount error for a typed row with
no amount. -/
theorem stepChecks_missing_amount (c : Candidate) (tt : TransactionType)
    (htt : c.transaction_type = some tt) (hna : c.amount = none) :
    "Cannot determine transaction amount" ∈ (stepChecks c).errors := by
  simp only [stepChecks, htt, addErr]
  (repeat' split) <;> simp_all

/-- The last two pipeline steps change neither the numeric inputs nor the
resolved type, so the staged row's final fields equal those seen by the
amount-resolution step. -/
theorem import_row_fields (store : MapStore) (jd : String → Bool)
    (cm : ColMap) (row : RawRow) :
    (import_transaction_row store jd cm row).quantity =
        (stepNotes cm row (stepJournal jd cm row (stepFees cm row
          (stepPrice cm row (stepAccount cm row (stepInstr cm row
            (stepSymbolWarn (stepSymbolOpt cm row (stepAction store cm row
              (stepDate cm row initCandidate)))))))))).quantity ∧
      (import_transaction_row store jd cm row).price =
        (stepNotes cm row (stepJournal jd cm row (stepFees cm row
          (stepPrice cm row (stepAccount cm row (stepInstr cm row
            (stepSymbolWarn (stepSymbolOpt cm row (stepAction store cm row
              (stepDate cm row initCandidate)))))))))).price ∧
      (import_transaction_row store jd cm row).fees =
        (stepNotes cm row (stepJournal jd cm row (stepFees cm row
          (stepPrice cm row (stepAccount cm row (stepInstr cm row
            (stepSymbolWarn (stepSymbolOpt cm row (stepAction store cm row
              (stepDate cm row initCandidate)))))))))).fees ∧
      (import_transaction_row store jd cm row).transaction_type =
        (stepNotes cm row (stepJournal jd cm row (stepFees cm row
          (stepPrice cm row (stepAccount cm row (stepInstr cm row
            (stepSymbolWarn (stepSymbolOpt cm row (stepAction store cm row
              (stepDate cm row initCandidate)))))))))).transaction_type := by
  unfold import_transaction_row
  exact ⟨by rw [stepChecks_quantity, stepAmount_quantity],
    by rw [stepChecks_price, stepAmount_price],
    by rw [stepChecks_fees, stepAmount_fees],
    by rw [stepChecks_transaction_type, stepAmount_transaction_type]⟩

/-- Without the expiration forcing and without a usable explicit amount
cell, the candidate reaching the amount-resolution step carries none. -/
theorem preAmount_none (store : MapStore) (jd : String → Bool)
    (cm : ColMap) (row : RawRow) :
    (stepNotes cm row (stepJournal jd cm row (stepFees cm row
      (stepPrice cm row (stepAccount cm row (stepInstr cm row
        (stepSymbolWarn (stepSymbolOpt cm row (stepAction store cm row
          (stepDate cm row initCandidate)))))))))).amount =
      (stepPrice cm row (stepAccount cm row (stepInstr cm row
        (stepSymbolWarn (stepSymbolOpt cm row (stepAction store cm row
          (stepDate cm row initCandidate))))))).amount := by
  rw [stepNotes_amount, stepJournal_amount, stepFees_amount]

/-- C3, amended.  With the action column mapped: (a) a mapped, parseable
amount cell becomes the row's amount unconditionally; otherwise, when the
action does not contain `expir`/`worthless`: (b) a BUY row with known
quantity, price and fees gets quantity × price + fees, (c) a SELL row
gets quantity × price − fees, (d) every other resolved type gets no
amount and the row carries the error `Cannot determine transaction
amount`; (e) when the action does contain `expir`/`worthless` the amount
is the forced zero instead (exception to the original claim); and (f)
grid edits of quantity, price or fees on a BUY or SELL row recompute the
amount by the same formula. -/
theorem c3_amount_resolution (store : MapStore) (jd : String → Bool)
    (cm : ColMap) (row : RawRow) (v : String)
    (ha : colCell cm row "action" = some v) :
    (∀ av a, colCell cm row "amount" = some av → parse_decimal av = some a →
      (import_transaction_row store jd cm row).amount = some a) ∧
    ((colCell cm row "amount").bind parse_decimal = none →
      (sIn "expir" (pyLower (pyStrip v)) ||
        sIn "worthless" (pyLower (pyStrip v))) = false →
      (∀ q p f,
        (import_transaction_row store jd cm row).transaction_type =
          some TransactionType.buy →
        (import_transaction_row store jd cm row).quantity = some q →
        (import_transaction_row store jd cm row).price = some p →
        (import_transaction_row store jd cm row).fees = some f →
        (import_transaction_row store jd cm row).amount =
          some (q * p + f)) ∧
      (∀ q p f,
        (import_transaction_row store jd cm row).transaction_type =
          some TransactionType.sell →
        (import_transaction_row store jd cm row).quantity = some q →
        (import_transaction_row store jd cm row).price = some p →
        (import_transaction_row store jd cm row).fees = some f →
        (import_transaction_row store jd cm row).amount =
          some (q * p - f)) ∧
      (∀ tt,
        (import_transaction_row store jd cm row).transaction_type =
          some tt →
        tt ≠ TransactionType.buy → tt ≠ TransactionType.sell →
        (import_transaction_row store jd cm row).amount = none ∧
          "Cannot determine transaction amount" ∈
            (import_transaction_row store jd cm row).errors)) ∧
    ((colCell cm row "amount").bind parse_decimal = none →
      (sIn "expir" (pyLower (pyStrip v)) ||
        sIn "worthless" (pyLower (pyStrip v))) = true →
      (import_transaction_row store jd cm row).amount = some 0) ∧
    (∀ (jjd : String → Bool) (c : Candidate) (x p f : ℚ),
      c.transaction_type = some TransactionType.buy → c.price = some p →
      c.fees = some f →
      (setData jjd c "quantity" (EditValue.vDec x)).1 = true ∧
        (setData jjd c "quantity" (EditValue.vDec x)).2.amount =
          some (x * p + f)) ∧
    (∀ (jjd : String → Bool) (c : Candidate) (q x f : ℚ),
      c.transaction_type = some TransactionType.sell →
      c.quantity = some q → c.fees = some f →
      (setData jjd c "price" (EditValue.vDec x)).2.amount =
        some (q * x - f)) ∧
    (∀ (jjd : String → Bool) (c : Candidate) (q p x : ℚ),
      c.transaction_type = some TransactionType.buy →
      c.quantity = some q → c.price = some p →
      (setData jjd c "fees" (EditValue.vDec x)).2.amount =
        some (q * p + x)) := by
  obtain ⟨hq, hp, hf, ht⟩ := import_row_fields store jd cm row
  refine ⟨?_, ?_, ?_, ?_, ?_, ?_⟩
  · intro av a hav hpa
    unfold import_transaction_row
    rw [stepChecks_amount]
    exact stepAmount_explicit _ _ _ av a hav hpa
  · intro hm hnx
    have hnone : (stepNotes cm row (stepJournal jd cm row (stepFees cm row
        (stepPrice cm row (stepAccount cm row (stepInstr cm row
          (stepSymbolWarn (stepSymbolOpt cm row (stepAction store cm row
            (stepDate cm row initCandidate)))))))))).amount = none := by
      rw [preAmount_none store jd cm row, stepPrice_amount,
        stepAccount_amount, stepInstr_amount, stepSymbolWarn_amount,
        stepSymbolOpt_amount,
        (stepAction_no_expir store cm row _ v ha hnx).2, stepDate_amount]
      rfl
    refine ⟨?_, ?_, ?_⟩
    · intro q p f htt hqq hpp hff
      rw [ht] at htt; rw [hq] at hqq; rw [hp] at hpp; rw [hf] at hff
      unfold import_transaction_row
      rw [stepChecks_amount,
        stepAmount_computes _ _ _ TransactionType.buy hm hnone htt, hqq,
        hpp, hff]
      simp [calculate_amount, ttValue]
    · intro q p f htt hqq hpp hff
      rw [ht] at htt; rw [hq] at hqq; rw [hp] at hpp; rw [hf] at hff
      unfold import_transaction_row
      rw [stepChecks_amount,
        stepAmount_computes _ _ _ TransactionType.sell hm hnone htt, hqq,
        hpp, hff]
      simp [calculate_amount, ttValue]
    · intro tt htt hnb hns
      rw [ht] at htt
      have hcalc : calculate_amount
          (stepNotes cm row (stepJournal jd cm row (stepFees cm row
            (stepPrice cm row (stepAccount cm row (stepInstr cm row
              (stepSymbolWarn (stepSymbolOpt cm row (stepAction store cm row
                (stepDate cm row initCandidate)))))))))).quantity
          (stepNotes cm row (stepJournal jd cm row (stepFees cm row
            (stepPrice cm row (stepAccount cm row (stepInstr cm row
              (stepSymbolWarn (stepSymbolOpt cm row (stepAction store cm row
                (stepDate cm row initCandidate)))))))))).price
          (stepNotes cm row (stepJournal jd cm row (stepFees cm row
            (stepPrice cm row (stepAccount cm row (stepInstr cm row
              (stepSymbolWarn (stepSymbolOpt cm row (stepAction store cm row
                (stepDate cm row initCandidate)))))))))).fees
          (ttValue tt) = none := by
        obtain ⟨hb1, hs1⟩ := ttValue_not_trade tt hnb hns
        simp [calculate_amount, hb1, hs1]
      have hamt : (import_transaction_row store jd cm row).amount = none := by
        unfold import_transaction_row
        rw [stepChecks_amount,
          stepAmount_computes _ _ _ tt hm hnone htt, hcalc]
      refine ⟨hamt, ?_⟩
      unfold import_transaction_row at hamt ⊢
      rw [stepChecks_amount] at hamt
      exact stepChecks_missing_amount _ tt
        (by rw [stepAmount_transaction_type]; exact htt) hamt
  · intro hm hx
    have h2 := stepAction_expir store cm row (stepDate cm row initCandidate)
      v ha hx
    unfold import_transaction_row
    rw [stepChecks_amount]
    apply stepAmount_keeps _ _ _ _ hm
    rw [stepNotes_amount, stepJournal_amount, stepFees_amount,
      stepPrice_amount, stepAccount_amount, stepInstr_amount,
      stepSymbolWarn_amount, stepSymbolOpt_amount]
    exact h2.2
  · intro jjd c x p f hb hcp hcf
    constructor <;>
      simp [setData, coerceDecimalEdit, hb, hcp, hcf, calculate_amount,
        ttValue, validate_row, validateErrors]
  · intro jjd c q x f hs hcq hcf
    simp [setData, coerceDecimalEdit, hs, hcq, hcf, calculate_amount,
      ttValue, validate_row, validateErrors]
  · intro jjd c q p x hb hcq hcp
    simp [setData, coerceDecimalEdit, hb, hcq, hcp, calculate_amount,
      ttValue, validate_row, validateErrors]

/-- C3 counterexample to the original claim's `every other type` clause:
an `expired` row (resolved type OPTION_EXPIRATION, neither BUY nor SELL)
with no supplied amount still receives a computed amount — the forced
zero — and carries no missing-amount error. -/
theorem c3_amount_resolution_counterexample :
    (import_transaction_row defaultMappings (fun _ => false)
        [("date", "D"), ("action", "A"), ("account_name", "N")]
        [("D", "2024-01-02"), ("A", "expired"), ("N", "X")]).transaction_type
        = some TransactionType.option_expiration ∧
      TransactionType.option_expiration ≠ TransactionType.buy ∧
      TransactionType.option_expiration ≠ TransactionType.sell ∧
      (import_transaction_row defaultMappings (fun _ => false)
        [("date", "D"), ("action", "A"), ("account_name", "N")]
        [("D", "2024-01-02"), ("A", "expired"), ("N", "X")]).amount =
        some 0 ∧
      "Cannot determine transaction amount" ∉
        (import_transaction_row defaultMappings (fun _ => false)
          [("date", "D"), ("action", "A"), ("account_name", "N")]
          [("D", "2024-01-02"), ("A", "expired"), ("N", "X")]).errors := by
  refine ⟨by decide, by decide, by decide, by decide, by decide⟩

/-- C3 witness: a BUY row with quantity 10, price 5.50, fees 0 and an
empty amount cell computes 10 × 5.50 + 0. -/
theorem c3_amount_resolution_witness :
    (import_transaction_row defaultMappings (fun _ => false)
        [("date", "Date"), ("action", "Action"), ("account_name", "Acct"),
         ("quantity", "Qty"), ("price", "Price"), ("amount", "Amt")]
        [("Date", "2024-07-19"), ("Action", "Buy"), ("Acct", "Main"),
         ("Qty", "10"), ("Price", "5.50"), ("Amt", "")]).amount =
      some (10 * (11 / 2) + 0) :=
  (((c3_amount_resolution defaultMappings (fun _ => false)
      [("date", "Date"), ("action", "Action"), ("account_name", "Acct"),
       ("quantity", "Qty"), ("price", "Price"), ("amount", "Amt")]
      [("Date", "2024-07-19"), ("Action", "Buy"), ("Acct", "Main"),
       ("Qty", "10"), ("Price", "5.50"), ("Amt", "")] "Buy"
      (by decide)).2.1 (by decide) (by decide)).1) 10 (11 / 2) 0
    (by decide) (by decide) (by decide) (by decide)

/-- The unmapped-account branch appends its fixed error. -/
theorem stepAccount_unmapped (cm : ColMap) (row : RawRow) (c : Candidate)
    (h : colCell cm row "account_name" = none) :
    (stepAccount cm row c).errors =
      c.errors ++ ["Account name is required but not mapped"] := by
  simp only [stepAccount, h, addErr]

/-- Journal processing only appends errors. -/
theorem stepJournal_errors_mono (jd : String → Bool) (cm : ColMap)
    (row : RawRow) (c : Candidate) (e : String) (he : e ∈ c.errors) :
    e ∈ (stepJournal jd cm row c).errors := by
  simp only [stepJournal, addErr]
  (repeat' split) <;> simp [he]

/-- The final checks only append errors. -/
theorem stepChecks_errors_mono (c : Candidate) (e : String)
    (he : e ∈ c.errors) : e ∈ (stepChecks c).errors := by
  simp only [stepChecks, addErr]
  (repeat' split) <;> simp [he]

theorem not_mem_listAddError (es : List String) (e x : String)
    (hx : x ∉ es) (hne : x ≠ e) : x ∉ listAddError es e := by
  simp only [listAddError]
  split
  · exact hx
  · simp [hx, hne]

theorem not_mem_ite_add (P : Prop) [Decidable P] (es : List String)
    (e x : String) (hx : x ∉ es) (hne : x ≠ e) :
    x ∉ (if P then listAddError es e else es) := by
  split
  · exact not_mem_listAddError es e x hx hne
  · exact hx

theorem not_mem_erase_foldl (l : List String) :
    ∀ (es : List String) (x : String), x ∉ es →
      x ∉ l.foldl (fun acc e => acc.erase e) es := by
  induction l with
  | nil => intro es x hx; exact hx
  | cons y rest ih =>
    intro es x hx
    exact ih _ _ (fun hcon => hx (List.mem_of_mem_erase hcon))

set_option maxHeartbeats 1600000 in
/-- With a valid account name, re-validation can only emit the seven
non-account error strings. -/
theorem validateErrors_not_mem (c : Candidate) (s : String)
    (hc : c.account_name = some s) (hval : ¬(s = "" ∨ pyStrip s = ""))
    (x : String) (h1 : x ≠ "Date is required")
    (h2 : x ≠ "Transaction type is required")
    (h3 : x ≠ "Symbol is required for this transaction type")
    (h4 : x ≠ "Instrument type is required when symbol is provided")
    (h5 : x ≠ "Quantity is required for buy/sell transactions")
    (h6 : x ≠ "Price is required for buy/sell transactions")
    (h7 : x ≠ "Amount is required for all transactions") :
    x ∉ validateErrors c := by
  have base : x ∉ ((List.filter
      (fun e => sIn "account name" (pyLower e))
      (if c.transaction_type = none then
        listAddError (if c.transaction_date = none then
          listAddError [] "Date is required" else [])
          "Transaction type is required"
       else
        (if c.transaction_date = none then
          listAddError [] "Date is required" else []))).foldl
      (fun acc e => acc.erase e)
      (if c.transaction_type = none then
        listAddError (if c.transaction_date = none then
          listAddError [] "Date is required" else [])
          "Transaction type is required"
       else
        (if c.transaction_date = none then
          listAddError [] "Date is required" else []))) := by
    refine not_mem_erase_foldl _ _ _ ?_
    refine not_mem_ite_add _ _ _ _ ?_ h2
    exact not_mem_ite_add _ _ _ _ (List.not_mem_nil x) h1
  simp only [validateErrors, hc, if_neg hval]
  cases htt : c.transaction_type with
  | none =>
    simp only [htt] at base ⊢
    exact base
  | some tt =>
    simp only [htt] at base ⊢
    refine not_mem_ite_add _ _ _ _ ?_ h7
    split
    · refine not_mem_ite_add _ _ _ _ ?_ h6
      refine not_mem_ite_add _ _ _ _ ?_ h5
      split
      · refine not_mem_ite_add _ _ _ _ ?_ h4
        refine not_mem_ite_add _ _ _ _ ?_ h3
        exact base
      · exact base
    · split
      · refine not_mem_ite_add _ _ _ _ ?_ h4
        refine not_mem_ite_add _ _ _ _ ?_ h3
        exact base
      · exact base

/-- With a valid account name, re-validation emits no account-name error
of either wording. -/
theorem validateErrors_no_account_error (c : Candidate) (s : String)
    (hc : c.account_name = some s) (hs1 : s ≠ "") (hs2 : pyStrip s ≠ "") :
    "Account name is required" ∉ validateErrors c ∧
      "Account name is required but not mapped" ∉ validateErrors c :=
  ⟨validateErrors_not_mem c s hc (by simp [hs1, hs2]) _ (by decide)
      (by decide) (by decide) (by decide) (by decide) (by decide)
      (by decide),
    validateErrors_not_mem c s hc (by simp [hs1, hs2]) _ (by decide)
      (by decide) (by decide) (by decide) (by decide) (by decide)
      (by decide)⟩

/-- C6 (amended): a row with date and action mapped but `account_name`
unmapped carries the error string "Account name is required but not
mapped" (not the claimed "Account name is required"), is excluded from
the commit set, and committing it alone leaves the database unchanged
without raising; a grid edit supplying a non-blank account name is
accepted and the re-validation leaves no account-name error of either
wording (though, recomputing the whole list, it may drop other errors
too). -/
theorem c6_unmapped_account_error_and_edit (store : MapStore)
    (jd jd2 : String → Bool) (cm : ColMap) (row : RawRow)
    (ha : colCell cm row "account_name" = none)
    (db : DbState) (c : Candidate) (s : String)
    (hs1 : s ≠ "") (hs2 : pyStrip s ≠ "") :
    ("Account name is required but not mapped" ∈
        (import_transaction_row store jd cm row).errors ∧
      commitEligible (import_transaction_row store jd cm row) = false ∧
      save_transactions [import_transaction_row store jd cm row] db =
        (db, none)) ∧
    ((setData jd2 c "account_name" (EditValue.vStr s)).1 = true ∧
      "Account name is required" ∉
        (setData jd2 c "account_name" (EditValue.vStr s)).2.errors ∧
      "Account name is required but not mapped" ∉
        (setData jd2 c "account_name" (EditValue.vStr s)).2.errors) := by
  have hmem : "Account name is required but not mapped" ∈
      (import_transaction_row store jd cm row).errors := by
    unfold import_transaction_row
    apply stepChecks_errors_mono
    rw [stepAmount_errors, stepNotes_errors]
    apply stepJournal_errors_mono
    rw [stepFees_errors, stepPrice_errors, stepAccount_unmapped _ _ _ ha]
    simp
  have hel : commitEligible (import_transaction_row store jd cm row) =
      false := by
    unfold commitEligible
    cases hl : (import_transaction_row store jd cm row).errors
    · rw [hl] at hmem
      exact absurd hmem (List.not_mem_nil _)
    · rfl
  have hset : setData jd2 c "account_name" (EditValue.vStr s) =
      (true, validate_row { c with account_name := some s }) := by
    simp [setData, setStrField]
  have hval :=
    validateErrors_no_account_error { c with account_name := some s } s
      rfl hs1 hs2
  refine ⟨⟨hmem, hel, ?_⟩, ?_, ?_, ?_⟩
  · simp [save_transactions, saveLoop, hel]
  · rw [hset]
  · rw [hset]
    exact hval.1
  · rw [hset]
    exact hval.2

/-- C6 counterexample: the import-side error string is "Account name is
required but not mapped", not the claimed "Account name is required";
and an accepted account-name edit also removes an unrelated import-side
error ("Invalid date format: garbage"), so it does not remove exactly
the account error and no others. -/
theorem c6_account_error_counterexample :
    ("Account name is required" ∉
        (import_transaction_row defaultMappings (fun _ => true)
          [("transaction_date", "Date"), ("action", "Action")]
          [("Date", "2024-01-02"), ("Action", "Buy")]).errors ∧
      "Account name is required but not mapped" ∈
        (import_transaction_row defaultMappings (fun _ => true)
          [("transaction_date", "Date"), ("action", "Action")]
          [("Date", "2024-01-02"), ("Action", "Buy")]).errors) ∧
    ((setData (fun _ => true)
        { errors := ["Invalid date format: garbage",
            "Account name is required but not mapped"] }
        "account_name" (EditValue.vStr "Main")).1 = true ∧
      "Invalid date format: garbage" ∈
        ({ errors := ["Invalid date format: garbage",
            "Account name is required but not mapped"] } : Candidate).errors ∧
      "Invalid date format: garbage" ∉
        (setData (fun _ => true)
          { errors := ["Invalid date format: garbage",
              "Account name is required but not mapped"] }
          "account_name" (EditValue.vStr "Main")).2.errors) := by
  decide

/-- C6 witness: a concrete unmapped-account row and a concrete edit
exercising the amended statement. -/
theorem c6_unmapped_account_error_and_edit_witness :
    ("Account name is required but not mapped" ∈
        (import_transaction_row defaultMappings (fun _ => false)
          [("transaction_date", "Date"), ("action", "Action")]
          [("Date", "2024-01-02"), ("Action", "Buy")]).errors ∧
      commitEligible
        (import_transaction_row defaultMappings (fun _ => false)
          [("transaction_date", "Date"), ("action", "Action")]
          [("Date", "2024-01-02"), ("Action", "Buy")]) = false ∧
      save_transactions
          [import_transaction_row defaultMappings (fun _ => false)
            [("transaction_date", "Date"), ("action", "Action")]
            [("Date", "2024-01-02"), ("Action", "Buy")]]
          ⟨[], [], [], 0⟩ =
        (⟨[], [], [], 0⟩, none)) ∧
    ((setData (fun _ => false) initCandidate "account_name"
        (EditValue.vStr "Main")).1 = true ∧
      "Account name is required" ∉
        (setData (fun _ => false) initCandidate "account_name"
          (EditValue.vStr "Main")).2.errors ∧
      "Account name is required but not mapped" ∉
        (setData (fun _ => false) initCandidate "account_name"
          (EditValue.vStr "Main")).2.errors) :=
  c6_unmapped_account_error_and_edit defaultMappings (fun _ => false)
    (fun _ => false) [("transaction_date", "Date"), ("action", "Action")]
    [("Date", "2024-01-02"), ("Action", "Buy")] (by decide)
    ⟨[], [], [], 0⟩ initCandidate "Main" (by decide) (by decide)

theorem dropWhile_eq_self_of_head (p : Char → Bool) (l : List Char)
    (h : ∀ c ∈ l, p c = false) : l.dropWhile p = l := by
  cases l with
  | nil => rfl
  | cons a t => simp [List.dropWhile_cons, h a (List.mem_cons_self a t)]

theorem stripChars_of_no_ws (l : List Char)
    (h : ∀ c ∈ l, isPyWs c = false) : stripChars l = l := by
  unfold stripChars
  rw [dropWhile_eq_self_of_head _ _ h,
    dropWhile_eq_self_of_head _ _ (fun c hc => h c (List.mem_reverse.mp hc)),
    List.reverse_reverse]

theorem stripChars_eq_nil_of_all (l : List Char)
    (h : ∀ c ∈ l, isPyWs c = true) : stripChars l = [] := by
  unfold stripChars
  rw [List.dropWhile_eq_nil_iff.mpr h]
  rfl

theorem all_of_stripChars_eq_nil (l : List Char)
    (h : stripChars l = []) : ∀ c ∈ l, isPyWs c = true := by
  unfold stripChars at h
  rw [List.reverse_eq_nil_iff, List.dropWhile_eq_nil_iff] at h
  intro c hc
  rcases (List.mem_append.mp
      ((List.takeWhile_append_dropWhile isPyWs l) ▸ hc)) with h1 | h1
  · exact List.mem_takeWhile_imp h1
  · exact h c (List.mem_reverse.mpr h1)

theorem char_ne_of_digit (c w : Char) (h : c.isDigit = true)
    (hw : w.isDigit = false) : c ≠ w := by
  intro he
  subst he
  rw [h] at hw
  simp at hw

theorem isPyWs_of_isDigit (c : Char) (h : c.isDigit = true) :
    isPyWs c = false := by
  have h1 := char_ne_of_digit c ' ' h (by decide)
  have h2 := char_ne_of_digit c '\t' h (by decide)
  have h3 := char_ne_of_digit c '\n' h (by decide)
  have h4 := char_ne_of_digit c '\r' h (by decide)
  have h5 := char_ne_of_digit c '\x0b' h (by decide)
  have h6 := char_ne_of_digit c '\x0c' h (by decide)
  simp [isPyWs, h1, h2, h3, h4, h5, h6]

theorem ws_not_currency (c : Char) (h : isPyWs c = true) :
    decide (c ≠ '$' ∧ c ≠ '€' ∧ c ≠ ',') = true := by
  simp only [isPyWs, Bool.or_eq_true, decide_eq_true_eq] at h
  rcases h with ((((rfl | rfl) | rfl) | rfl) | rfl) | rfl <;> decide

-- digitChar facts
theorem digitChar_isDigit (k : Nat) (h : k < 10) :
    (digitChar k).isDigit = true := by
  interval_cases k <;> decide

theorem digitChar_toNat (k : Nat) (h : k < 10) :
    (digitChar k).toNat = 48 + k := by
  interval_cases k <;> decide

theorem natDigitsAux_ne_nil (fuel n : Nat) (h : n < fuel) :
    natDigitsAux fuel n ≠ [] := by
  cases fuel with
  | zero => omega
  | succ f =>
    simp only [natDigitsAux]
    split
    · simp
    · simp

theorem natDigits_ne_nil (n : Nat) : natDigits n ≠ [] :=
  natDigitsAux_ne_nil (n + 1) n (by omega)

theorem natDigitsAux_all_digit (fuel : Nat) :
    ∀ n, n < fuel → ∀ c ∈ natDigitsAux fuel n, c.isDigit = true := by
  induction fuel with
  | zero => intro n hn; omega
  | succ f ih =>
    intro n hn
    simp only [natDigitsAux]
    split
    · intro c hc
      rw [List.mem_singleton] at hc
      subst hc
      exact digitChar_isDigit n (by omega)
    · intro c hc
      rcases List.mem_append.mp hc with h1 | h1
      · have hlt : n / 10 < f := by omega
        exact ih (n / 10) hlt c h1
      · rw [List.mem_singleton] at h1
        subst h1
        exact digitChar_isDigit _ (Nat.mod_lt _ (by omega))

theorem natDigits_all_digit (n : Nat) :
    ∀ c ∈ natDigits n, c.isDigit = true :=
  natDigitsAux_all_digit (n + 1) n (by omega)

theorem digitsVal_append (cs ds : List Char) :
    ∀ acc, digitsVal (cs ++ ds) acc = digitsVal ds (digitsVal cs acc) := by
  induction cs with
  | nil => intro acc; rfl
  | cons c t ih =>
    intro acc
    simp only [List.cons_append, digitsVal, List.append_eq, ih]

theorem strToNat_natDigitsAux (fuel : Nat) :
    ∀ n, n < fuel → strToNat (natDigitsAux fuel n) = n := by
  induction fuel with
  | zero => intro n hn; omega
  | succ f ih =>
    intro n hn
    simp only [natDigitsAux]
    split
    · show digitsVal [digitChar n] 0 = n
      simp only [digitsVal, digitChar_toNat n (by omega)]
      omega
    · show digitsVal (natDigitsAux f (n / 10) ++ [digitChar (n % 10)]) 0 = n
      rw [digitsVal_append]
      have hlt : n / 10 < f := by omega
      have hrec := ih (n / 10) hlt
      unfold strToNat at hrec
      simp only [digitsVal, hrec,
        digitChar_toNat (n % 10) (Nat.mod_lt _ (by omega))]
      omega

theorem strToNat_natDigits (n : Nat) : strToNat (natDigits n) = n :=
  strToNat_natDigitsAux (n + 1) n (by omega)

theorem takeWhile_all_eq (p : Char → Bool) (l : List Char)
    (h : ∀ c ∈ l, p c = true) : l.takeWhile p = l :=
  List.takeWhile_eq_self_iff.mpr h

theorem takeWhile_append_stop (p : Char → Bool) (l : List Char) (c : Char)
    (r : List Char) (hl : ∀ x ∈ l, p x = true) (hc : p c = false) :
    (l ++ c :: r).takeWhile p = l := by
  induction l with
  | nil => simp [List.takeWhile_cons, hc]
  | cons a t ih =>
    simp only [List.cons_append, List.takeWhile_cons,
      hl a (List.mem_cons_self a t)]
    rw [ih (fun x hx => hl x (List.mem_cons_of_mem a hx))]
    simp

theorem dropWhile_append_stop (p : Char → Bool) (l : List Char) (c : Char)
    (r : List Char) (hl : ∀ x ∈ l, p x = true) (hc : p c = false) :
    (l ++ c :: r).dropWhile p = c :: r := by
  induction l with
  | nil => simp [List.dropWhile_cons, hc]
  | cons a t ih =>
    simp only [List.cons_append, List.dropWhile_cons,
      hl a (List.mem_cons_self a t)]
    simp only [if_true]
    exact ih (fun x hx => hl x (List.mem_cons_of_mem a hx))

/-- `pyDecimalTail` on a pure digit run is its numeric value. -/
theorem pyDecimalTail_digits (cs : List Char) (hne : cs ≠ [])
    (hall : ∀ c ∈ cs, c.isDigit = true) :
    pyDecimalTail cs = some (strToNat cs) := by
  simp only [pyDecimalTail, takeWhile_all_eq _ _ hall,
    List.dropWhile_eq_nil_iff.mpr hall]
  cases cs with
  | nil => exact absurd rfl hne
  | cons a t => rfl

/-- `pyDecimalTail` on digits, a point, and fraction digits. -/
theorem pyDecimalTail_frac (is fs : List Char) (hne : is ≠ [])
    (hi : ∀ c ∈ is, c.isDigit = true) (hf : ∀ c ∈ fs, c.isDigit = true) :
    pyDecimalTail (is ++ '.' :: fs) =
      some ((strToNat is : ℚ) + (strToNat fs : ℚ) / (10 : ℚ) ^ fs.length) := by
  simp only [pyDecimalTail,
    takeWhile_append_stop Char.isDigit is '.' fs hi (by decide),
    dropWhile_append_stop Char.isDigit is '.' fs hi (by decide),
    takeWhile_all_eq _ _ hf, List.dropWhile_eq_nil_iff.mpr hf]
  cases is with
  | nil => exact absurd rfl hne
  | cons a t => rfl

/-- `pyDecimal` on a clean unsigned literal delegates to the tail parser. -/
theorem pyDecimal_eq_tail (c : Char) (t : List Char)
    (hnws : ∀ x ∈ c :: t, isPyWs x = false)
    (hnus : ∀ x ∈ c :: t, x ≠ '_')
    (hc1 : c ≠ '+') (hc2 : c ≠ '-') :
    pyDecimal ⟨c :: t⟩ = pyDecimalTail (c :: t) := by
  simp only [pyDecimal]
  rw [stripChars_of_no_ws _ hnws,
    List.filter_eq_self.mpr (fun a ha => decide_eq_true (hnus a ha))]
  split
  · rename_i heq
    injection heq with h1 h2
    exact absurd h1 hc1
  · rename_i heq
    injection heq with h1 h2
    exact absurd h1 hc2
  · rfl

/-- `pyDecimal` on a clean negative literal negates the tail parse. -/
theorem pyDecimal_neg (cs : List Char)
    (hnws : ∀ x ∈ '-' :: cs, isPyWs x = false)
    (hnus : ∀ x ∈ '-' :: cs, x ≠ '_') :
    pyDecimal ⟨'-' :: cs⟩ = (pyDecimalTail cs).map Neg.neg := by
  simp only [pyDecimal]
  rw [stripChars_of_no_ws _ hnws,
    List.filter_eq_self.mpr (fun a ha => decide_eq_true (hnus a ha))]
  split
  · rename_i heq
    injection heq with h1 h2
    exact absurd h1 (by decide)
  · rename_i t heq
    injection heq with h1 h2
    rw [h2]
  · rename_i hne1 hne2
    exact absurd rfl (hne2 cs)

/-- `parse_decimal` on non-blank currency-free input delegates to
`Decimal`. -/
theorem parse_decimal_clean (cs : List Char) (hne : cs ≠ [])
    (hnws : ∀ c ∈ cs, isPyWs c = false)
    (hncur : ∀ c ∈ cs, c ≠ '$' ∧ c ≠ '€' ∧ c ≠ ',') :
    parse_decimal ⟨cs⟩ = pyDecimal ⟨cs⟩ := by
  have hne' : (⟨cs⟩ : String) ≠ "" := by
    simpa [String.ext_iff] using hne
  have hstrip : pyStrip ⟨cs⟩ = ⟨cs⟩ := by
    simp only [pyStrip]
    rw [stripChars_of_no_ws _ hnws]
  simp only [parse_decimal]
  rw [if_neg (not_or.mpr ⟨hne', by rw [hstrip]; exact hne'⟩)]
  rw [List.filter_eq_self.mpr (fun a ha => decide_eq_true (hncur a ha)),
    hstrip]

theorem parse_decimal_ws_none (s : String)
    (h : ∀ c ∈ s.data, isPyWs c = true) : parse_decimal s = none := by
  have hstrip : pyStrip s = "" := by
    have hnil : stripChars s.data = [] := stripChars_eq_nil_of_all _ h
    simp only [pyStrip, hnil]
  simp [parse_decimal, hstrip]

theorem parse_decimal_currency (s t : String) (c : Char)
    (hc : c = '$' ∨ c = '€' ∨ c = ',') :
    parse_decimal (s ++ ⟨[c]⟩ ++ t) = parse_decimal (s ++ t) := by
  have hcws : isPyWs c = false := by rcases hc with rfl | rfl | rfl <;> decide
  have hcfil : decide (c ≠ '$' ∧ c ≠ '€' ∧ c ≠ ',') = false := by
    rcases hc with rfl | rfl | rfl <;> decide
  have hdata : (s ++ ⟨[c]⟩ ++ t).data = s.data ++ c :: t.data := by
    simp [String.data_append]
  have hne1 : (s ++ ⟨[c]⟩ ++ t) ≠ "" := by
    rw [ne_eq, String.ext_iff, hdata]
    simp
  have hne2 : pyStrip (s ++ ⟨[c]⟩ ++ t) ≠ "" := by
    intro heq
    have hnil : stripChars (s ++ ⟨[c]⟩ ++ t).data = [] := by
      have := congrArg String.data heq
      simpa [pyStrip] using this
    have hall := all_of_stripChars_eq_nil _ hnil
    have hcw := hall c (by
      rw [hdata]
      exact List.mem_append_right _ (List.mem_cons_self _ _))
    rw [hcws] at hcw
    exact Bool.noConfusion hcw
  have hfil : (s ++ ⟨[c]⟩ ++ t).data.filter
        (fun x => decide (x ≠ '$' ∧ x ≠ '€' ∧ x ≠ ',')) =
      (s ++ t).data.filter
        (fun x => decide (x ≠ '$' ∧ x ≠ '€' ∧ x ≠ ',')) := by
    rw [hdata, String.data_append, List.filter_append, List.filter_append,
      List.filter_cons, hcfil]
    simp
  simp only [parse_decimal]
  rw [if_neg (not_or.mpr ⟨hne1, hne2⟩), hfil]
  split
  · rename_i hy
    have hallws : ∀ x ∈ (s ++ t).data, isPyWs x = true := by
      rcases hy with hy | hy
      · rw [hy]
        intro x hx
        simp at hx
      · exact all_of_stripChars_eq_nil _ (by
          have := congrArg String.data hy
          simpa [pyStrip] using this)
    have hkeep : (s ++ t).data.filter
          (fun x => decide (x ≠ '$' ∧ x ≠ '€' ∧ x ≠ ',')) =
        (s ++ t).data :=
      List.filter_eq_self.mpr (fun a ha => ws_not_currency a (hallws a ha))
    rw [hkeep]
    have hznil : stripChars (s ++ t).data = [] :=
      stripChars_eq_nil_of_all _ hallws
    have hz : pyStrip ⟨(s ++ t).data⟩ = "" := by
      simp only [pyStrip, hznil]
    rw [hz]
    decide
  · rfl

theorem parse_decimal_natDigits (n : Nat) :
    parse_decimal ⟨natDigits n⟩ = some (n : ℚ) := by
  have hall := natDigits_all_digit n
  have hne := natDigits_ne_nil n
  have hnws : ∀ x ∈ natDigits n, isPyWs x = false :=
    fun x hx => isPyWs_of_isDigit x (hall x hx)
  have hncur : ∀ x ∈ natDigits n, x ≠ '$' ∧ x ≠ '€' ∧ x ≠ ',' :=
    fun x hx =>
      ⟨char_ne_of_digit x '$' (hall x hx) (by decide),
       char_ne_of_digit x '€' (hall x hx) (by decide),
       char_ne_of_digit x ',' (hall x hx) (by decide)⟩
  have hnus : ∀ x ∈ natDigits n, x ≠ '_' :=
    fun x hx => char_ne_of_digit x '_' (hall x hx) (by decide)
  rw [parse_decimal_clean _ hne hnws hncur]
  obtain ⟨c, t, hct⟩ := List.exists_cons_of_ne_nil hne
  have hcd : c.isDigit = true :=
    hall c (by rw [hct]; exact List.mem_cons_self c t)
  rw [hct]
  rw [pyDecimal_eq_tail c t (hct ▸ hnws) (hct ▸ hnus)
    (char_ne_of_digit c '+' hcd (by decide))
    (char_ne_of_digit c '-' hcd (by decide))]
  rw [← hct, pyDecimalTail_digits _ hne hall, strToNat_natDigits]
  rfl

theorem mem_digit_dot (n : Nat) (fs : List Char)
    (hf : ∀ x ∈ fs, x.isDigit = true) :
    ∀ x ∈ natDigits n ++ '.' :: fs, x.isDigit = true ∨ x = '.' := by
  intro x hx
  rcases List.mem_append.mp hx with h | h
  · exact Or.inl (natDigits_all_digit n x h)
  · rcases List.mem_cons.mp h with rfl | h
    · exact Or.inr rfl
    · exact Or.inl (hf x h)

theorem clean_frac_props (x : Char) (h : x.isDigit = true ∨ x = '.') :
    isPyWs x = false ∧ x ≠ '_' ∧ (x ≠ '$' ∧ x ≠ '€' ∧ x ≠ ',') := by
  rcases h with h | rfl
  · exact ⟨isPyWs_of_isDigit x h,
      char_ne_of_digit x '_' h (by decide),
      char_ne_of_digit x '$' h (by decide),
      char_ne_of_digit x '€' h (by decide),
      char_ne_of_digit x ',' h (by decide)⟩
  · exact ⟨by decide, by decide, by decide, by decide, by decide⟩

theorem parse_decimal_frac (n : Nat) (fs : List Char)
    (hf : ∀ x ∈ fs, x.isDigit = true) :
    parse_decimal ⟨natDigits n ++ '.' :: fs⟩ =
      some ((n : ℚ) + (strToNat fs : ℚ) / (10 : ℚ) ^ fs.length) := by
  have hmem := mem_digit_dot n fs hf
  have hne : natDigits n ++ '.' :: fs ≠ [] := by
    intro h
    rcases List.append_eq_nil.mp h with ⟨_, h2⟩
    exact List.noConfusion h2
  have hnws : ∀ x ∈ natDigits n ++ '.' :: fs, isPyWs x = false :=
    fun x hx => (clean_frac_props x (hmem x hx)).1
  have hnus : ∀ x ∈ natDigits n ++ '.' :: fs, x ≠ '_' :=
    fun x hx => (clean_frac_props x (hmem x hx)).2.1
  have hncur : ∀ x ∈ natDigits n ++ '.' :: fs, x ≠ '$' ∧ x ≠ '€' ∧ x ≠ ',' :=
    fun x hx => (clean_frac_props x (hmem x hx)).2.2
  rw [parse_decimal_clean _ hne hnws hncur]
  obtain ⟨c, t, hct⟩ := List.exists_cons_of_ne_nil (natDigits_ne_nil n)
  have hcons : natDigits n ++ '.' :: fs = c :: (t ++ '.' :: fs) := by
    rw [hct]
    rfl
  have hcd : c.isDigit = true :=
    natDigits_all_digit n c (by rw [hct]; exact List.mem_cons_self c t)
  rw [hcons]
  rw [pyDecimal_eq_tail c (t ++ '.' :: fs) (hcons ▸ hnws) (hcons ▸ hnus)
    (char_ne_of_digit c '+' hcd (by decide))
    (char_ne_of_digit c '-' hcd (by decide))]
  rw [← hcons,
    pyDecimalTail_frac (natDigits n) fs (natDigits_ne_nil n)
      (natDigits_all_digit n) hf,
    strToNat_natDigits]

theorem parse_decimal_neg_frac (n : Nat) (fs : List Char)
    (hf : ∀ x ∈ fs, x.isDigit = true) :
    parse_decimal ⟨'-' :: (natDigits n ++ '.' :: fs)⟩ =
      some (-((n : ℚ) + (strToNat fs : ℚ) / (10 : ℚ) ^ fs.length)) := by
  have hmem := mem_digit_dot n fs hf
  have hnws : ∀ x ∈ '-' :: (natDigits n ++ '.' :: fs), isPyWs x = false := by
    intro x hx
    rcases List.mem_cons.mp hx with rfl | hx
    · decide
    · exact (clean_frac_props x (hmem x hx)).1
  have hnus : ∀ x ∈ '-' :: (natDigits n ++ '.' :: fs), x ≠ '_' := by
    intro x hx
    rcases List.mem_cons.mp hx with rfl | hx
    · decide
    · exact (clean_frac_props x (hmem x hx)).2.1
  have hncur : ∀ x ∈ '-' :: (natDigits n ++ '.' :: fs),
      x ≠ '$' ∧ x ≠ '€' ∧ x ≠ ',' := by
    intro x hx
    rcases List.mem_cons.mp hx with rfl | hx
    · exact ⟨by decide, by decide, by decide⟩
    · exact (clean_frac_props x (hmem x hx)).2.2
  rw [parse_decimal_clean _ (List.cons_ne_nil _ _) hnws hncur]
  rw [pyDecimal_neg _ hnws hnus]
  rw [pyDecimalTail_frac (natDigits n) fs (natDigits_ne_nil n)
      (natDigits_all_digit n) hf,
    strToNat_natDigits]
  rfl

/-- C10: `parse_decimal` is total: blank input gives no value; the
currency characters and comma are transparent wherever they occur; and a
valid cleaned decimal numeral parses to its exact rational value,
integral, fractional and signed. -/
theorem c10_parse_decimal_total_exact :
    (∀ s : String, (∀ c ∈ s.data, isPyWs c = true) →
      parse_decimal s = none) ∧
    (∀ s t : String, ∀ c : Char, c = '$' ∨ c = '€' ∨ c = ',' →
      parse_decimal (s ++ ⟨[c]⟩ ++ t) = parse_decimal (s ++ t)) ∧
    (∀ n : Nat, parse_decimal ⟨natDigits n⟩ = some (n : ℚ)) ∧
    (∀ n : Nat, ∀ fs : List Char, (∀ x ∈ fs, x.isDigit = true) →
      parse_decimal ⟨natDigits n ++ '.' :: fs⟩ =
          some ((n : ℚ) + (strToNat fs : ℚ) / (10 : ℚ) ^ fs.length) ∧
        parse_decimal ⟨'-' :: (natDigits n ++ '.' :: fs)⟩ =
          some (-((n : ℚ) + (strToNat fs : ℚ) / (10 : ℚ) ^ fs.length))) :=
  ⟨parse_decimal_ws_none, parse_decimal_currency, parse_decimal_natDigits,
    fun n fs hf => ⟨parse_decimal_frac n fs hf, parse_decimal_neg_frac n fs hf⟩⟩

/-- C10 witness: blank, comma-laden, integral, fractional and negative
inputs at concrete values. -/
theorem c10_parse_decimal_total_exact_witness :
    parse_decimal " \t " = none ∧
    parse_decimal ("12" ++ ⟨[',']⟩ ++ "34.5") = parse_decimal ("12" ++ "34.5") ∧
    parse_decimal ⟨natDigits 42⟩ = some (42 : ℚ) ∧
    (parse_decimal ⟨natDigits 3 ++ '.' :: ['2', '5']⟩ =
        some ((3 : ℚ) + (strToNat ['2', '5'] : ℚ) /
          (10 : ℚ) ^ (['2', '5'] : List Char).length) ∧
      parse_decimal ⟨'-' :: (natDigits 3 ++ '.' :: ['2', '5'])⟩ =
        some (-((3 : ℚ) + (strToNat ['2', '5'] : ℚ) /
          (10 : ℚ) ^ (['2', '5'] : List Char).length))) :=
  ⟨c10_parse_decimal_total_exact.1 " \t " (by decide),
   c10_parse_decimal_total_exact.2.1 "12" "34.5" ',' (Or.inr (Or.inr rfl)),
   c10_parse_decimal_total_exact.2.2.1 42,
   c10_parse_decimal_total_exact.2.2.2 3 ['2', '5'] (by decide)⟩

theorem natDigitsAux_length (fuel : Nat) :
    ∀ n k, n < fuel → 10 ^ k ≤ n → n < 10 ^ (k + 1) →
      (natDigitsAux fuel n).length = k + 1 := by
  induction fuel with
  | zero => intro n k h _ _; omega
  | succ f ih =>
    intro n k hn hlo hhi
    simp only [natDigitsAux]
    split
    · rename_i h10
      cases k with
      | zero => rfl
      | succ kk =>
        exfalso
        have h1 : (10 : Nat) = 10 ^ 1 := by norm_num
        have h2 : (10 : Nat) ^ 1 ≤ 10 ^ (kk + 1) :=
          Nat.pow_le_pow_right (by omega) (by omega)
        omega
    · rename_i h10
      cases k with
      | zero =>
        exfalso
        have h1 : (10 : Nat) ^ (0 + 1) = 10 := by norm_num
        omega
      | succ kk =>
        have hlo2 : 10 ^ kk ≤ n / 10 := by
          rw [Nat.le_div_iff_mul_le (by omega)]
          have : 10 ^ kk * 10 = 10 ^ (kk + 1) := by ring
          omega
        have hhi2 : n / 10 < 10 ^ (kk + 1) := by
          rw [Nat.div_lt_iff_lt_mul (by omega)]
          have : 10 ^ (kk + 1) * 10 = 10 ^ (kk + 1 + 1) := by ring
          omega
        have hfn : n / 10 < f := by omega
        rw [List.length_append, ih (n / 10) kk hfn hlo2 hhi2]
        simp

theorem natDigits_length_four (y : Nat) (h1 : 1000 ≤ y) (h2 : y ≤ 9999) :
    (natDigits y).length = 4 := by
  have := natDigitsAux_length (y + 1) y 3 (by omega) (by norm_num; omega)
    (by norm_num; omega)
  simpa [natDigits] using this

theorem natDigits_length_two (n : Nat) (h1 : 10 ≤ n) (h2 : n ≤ 99) :
    (natDigits n).length = 2 := by
  have := natDigitsAux_length (n + 1) n 1 (by omega) (by norm_num; omega)
    (by norm_num; omega)
  simpa [natDigits] using this

theorem pad2_length (n : Nat) (h : n ≤ 99) : (pad2 n).length = 2 := by
  unfold pad2
  split
  · rfl
  · exact natDigits_length_two n (by omega) h

theorem pad2_all_digit (n : Nat) (h : n ≤ 99) :
    ∀ c ∈ pad2 n, c.isDigit = true := by
  unfold pad2
  split
  · intro c hc
    rcases List.mem_cons.mp hc with rfl | hc
    · decide
    · rw [List.mem_singleton] at hc
      subst hc
      exact digitChar_isDigit n (by omega)
  · exact natDigits_all_digit n

theorem strToNat_pad2 (n : Nat) (h : n ≤ 99) : strToNat (pad2 n) = n := by
  unfold pad2
  split
  · show digitsVal ['0', digitChar n] 0 = n
    have h0 : Char.toNat '0' = 48 := rfl
    simp only [digitsVal, digitChar_toNat n (by omega), h0]
    omega
  · exact strToNat_natDigits n

theorem daysInMonth_le (y m : Nat) : daysInMonth y m ≤ 31 := by
  unfold daysInMonth
  (repeat' split) <;> omega

theorem daysInMonth_ge (y m : Nat) : 28 ≤ daysInMonth y m := by
  unfold daysInMonth
  (repeat' split) <;> omega

theorem splitDateParts_runs (sep : Char) (a b c : List Char)
    (hsep : sep.isDigit = false)
    (ha : ∀ x ∈ a, x.isDigit = true) (hb : ∀ x ∈ b, x.isDigit = true)
    (hc : ∀ x ∈ c, x.isDigit = true) :
    splitDateParts sep (a ++ sep :: (b ++ sep :: c)) = some (a, b, c) := by
  simp only [splitDateParts,
    takeWhile_append_stop Char.isDigit a sep (b ++ sep :: c) ha hsep,
    dropWhile_append_stop Char.isDigit a sep (b ++ sep :: c) ha hsep,
    takeWhile_append_stop Char.isDigit b sep c hb hsep,
    dropWhile_append_stop Char.isDigit b sep c hb hsep,
    takeWhile_all_eq Char.isDigit c hc,
    List.dropWhile_eq_nil_iff.mpr hc]
  simp

theorem splitDateParts_wrong_sep (sep : Char) (a : List Char) (c1 : Char)
    (r : List Char) (ha : ∀ x ∈ a, x.isDigit = true)
    (hc1 : c1.isDigit = false) (hne : c1 ≠ sep) :
    splitDateParts sep (a ++ c1 :: r) = none := by
  simp only [splitDateParts,
    takeWhile_append_stop Char.isDigit a c1 r ha hc1,
    dropWhile_append_stop Char.isDigit a c1 r ha hc1]
  simp [hne]

theorem monthRunOk_pad2 (m : Nat) (h1 : 1 ≤ m) (h2 : m ≤ 12) :
    monthRunOk (pad2 m) = true := by
  have hlen := pad2_length m (by omega)
  have hne : pad2 m ≠ [] := by
    intro h0
    rw [h0] at hlen
    simp at hlen
  simp [monthRunOk, hlen, strToNat_pad2 m (by omega), h1, h2,
    List.isEmpty_iff, hne]

theorem monthRunOk_pad2_big (m : Nat) (h1 : 12 < m) (h2 : m ≤ 99) :
    monthRunOk (pad2 m) = false := by
  simp [monthRunOk, strToNat_pad2 m h2]
  omega

theorem dayRunOk_pad2 (n : Nat) (h1 : 1 ≤ n) (h2 : n ≤ 31) :
    dayRunOk (pad2 n) = true := by
  have hlen := pad2_length n (by omega)
  have hne : pad2 n ≠ [] := by
    intro h0
    rw [h0] at hlen
    simp at hlen
  simp [dayRunOk, hlen, strToNat_pad2 n (by omega), h1, h2,
    List.isEmpty_iff, hne]

theorem yearRunOk_natDigits (y : Nat) (h1 : 1000 ≤ y) (h2 : y ≤ 9999) :
    yearRunOk (natDigits y) = true := by
  simp [yearRunOk, natDigits_length_four y h1 h2]

theorem yearRunOk_pad2 (n : Nat) (h : n ≤ 99) :
    yearRunOk (pad2 n) = false := by
  simp [yearRunOk, pad2_length n h]

theorem mkValidDate_eta (d : DateT) (hv : validDate d) :
    mkValidDate d.year d.month d.day = some d := by
  obtain ⟨h1, h2, h3, h4, h5, h6⟩ := hv
  rw [mkValidDate, if_pos ⟨by omega, by omega, h3, h4, h5, h6⟩]

theorem strptimeYmd_iso (d : DateT) (hv : validDate d) :
    strptimeYmd (isoString d).data = some d := by
  obtain ⟨h1, h2, h3, h4, h5, h6⟩ := hv
  have hd31 : d.day ≤ 31 := by
    have := daysInMonth_le d.year d.month
    omega
  have hsplit := splitDateParts_runs '-' (natDigits d.year) (pad2 d.month)
    (pad2 d.day) (by decide) (natDigits_all_digit d.year)
    (pad2_all_digit d.month (by omega)) (pad2_all_digit d.day (by omega))
  show strptimeYmd
    (natDigits d.year ++ '-' :: (pad2 d.month ++ '-' :: pad2 d.day)) = some d
  simp only [strptimeYmd, hsplit]
  rw [if_pos (by
    simp [yearRunOk_natDigits d.year h1 h2, monthRunOk_pad2 d.month h3 h4,
      dayRunOk_pad2 d.day h5 hd31])]
  rw [strToNat_natDigits, strToNat_pad2 d.month (by omega),
    strToNat_pad2 d.day (by omega)]
  exact mkValidDate_eta d ⟨h1, h2, h3, h4, h5, h6⟩

theorem strptimeMdY_us (d : DateT) (hv : validDate d) :
    strptimeMdY (usString d).data = some d := by
  obtain ⟨h1, h2, h3, h4, h5, h6⟩ := hv
  have hd31 : d.day ≤ 31 := by
    have := daysInMonth_le d.year d.month
    omega
  have hsplit := splitDateParts_runs '/' (pad2 d.month) (pad2 d.day)
    (natDigits d.year) (by decide) (pad2_all_digit d.month (by omega))
    (pad2_all_digit d.day (by omega)) (natDigits_all_digit d.year)
  show strptimeMdY
    (pad2 d.month ++ '/' :: (pad2 d.day ++ '/' :: natDigits d.year)) = some d
  simp only [strptimeMdY, hsplit]
  rw [if_pos (by
    simp [monthRunOk_pad2 d.month h3 h4, dayRunOk_pad2 d.day h5 hd31,
      yearRunOk_natDigits d.year h1 h2])]
  rw [strToNat_natDigits, strToNat_pad2 d.month (by omega),
    strToNat_pad2 d.day (by omega)]
  exact mkValidDate_eta d ⟨h1, h2, h3, h4, h5, h6⟩

theorem strptimeYmd_us (d : DateT) (hm : d.month ≤ 99) :
    strptimeYmd (usString d).data = none := by
  have hsplit := splitDateParts_wrong_sep '-' (pad2 d.month) '/'
    (pad2 d.day ++ '/' :: natDigits d.year) (pad2_all_digit d.month hm)
    (by decide) (by decide)
  show strptimeYmd
    (pad2 d.month ++ '/' :: (pad2 d.day ++ '/' :: natDigits d.year)) = none
  simp only [strptimeYmd, hsplit]

theorem strptimeYmd_euSlash (d : DateT) (hd : d.day ≤ 99) :
    strptimeYmd (euSlashString d).data = none := by
  have hsplit := splitDateParts_wrong_sep '-' (pad2 d.day) '/'
    (pad2 d.month ++ '/' :: natDigits d.year) (pad2_all_digit d.day hd)
    (by decide) (by decide)
  show strptimeYmd
    (pad2 d.day ++ '/' :: (pad2 d.month ++ '/' :: natDigits d.year)) = none
  simp only [strptimeYmd, hsplit]

theorem strptimeMdY_euSlash_small (d : DateT) (hv : validDate d)
    (hle : d.day ≤ 12) :
    strptimeMdY (euSlashString d).data = some ⟨d.year, d.day, d.month⟩ := by
  obtain ⟨h1, h2, h3, h4, h5, h6⟩ := hv
  have hsplit := splitDateParts_runs '/' (pad2 d.day) (pad2 d.month)
    (natDigits d.year) (by decide) (pad2_all_digit d.day (by omega))
    (pad2_all_digit d.month (by omega)) (natDigits_all_digit d.year)
  show strptimeMdY
    (pad2 d.day ++ '/' :: (pad2 d.month ++ '/' :: natDigits d.year)) =
      some ⟨d.year, d.day, d.month⟩
  simp only [strptimeMdY, hsplit]
  rw [if_pos (by
    simp [monthRunOk_pad2 d.day h5 hle, dayRunOk_pad2 d.month h3 (by omega),
      yearRunOk_natDigits d.year h1 h2])]
  rw [strToNat_natDigits, strToNat_pad2 d.day (by omega),
    strToNat_pad2 d.month (by omega)]
  rw [mkValidDate, if_pos]
  refine ⟨by omega, by omega, by omega, by omega, by omega, ?_⟩
  have := daysInMonth_ge d.year d.day
  omega

theorem strptimeMdY_euSlash_big (d : DateT) (hgt : 12 < d.day)
    (hd : d.day ≤ 99) (hm : d.month ≤ 99) :
    strptimeMdY (euSlashString d).data = none := by
  have hsplit := splitDateParts_runs '/' (pad2 d.day) (pad2 d.month)
    (natDigits d.year) (by decide) (pad2_all_digit d.day hd)
    (pad2_all_digit d.month hm) (natDigits_all_digit d.year)
  show strptimeMdY
    (pad2 d.day ++ '/' :: (pad2 d.month ++ '/' :: natDigits d.year)) = none
  simp only [strptimeMdY, hsplit]
  simp [monthRunOk_pad2_big d.day hgt hd]

theorem strptimeDmY_euSlash (d : DateT) (hv : validDate d) :
    strptimeDmY (euSlashString d).data = some d := by
  obtain ⟨h1, h2, h3, h4, h5, h6⟩ := hv
  have hd31 : d.day ≤ 31 := by
    have := daysInMonth_le d.year d.month
    omega
  have hsplit := splitDateParts_runs '/' (pad2 d.day) (pad2 d.month)
    (natDigits d.year) (by decide) (pad2_all_digit d.day (by omega))
    (pad2_all_digit d.month (by omega)) (natDigits_all_digit d.year)
  show strptimeDmY
    (pad2 d.day ++ '/' :: (pad2 d.month ++ '/' :: natDigits d.year)) = some d
  simp only [strptimeDmY, hsplit]
  rw [if_pos (by
    simp [dayRunOk_pad2 d.day h5 hd31, monthRunOk_pad2 d.month h3 h4,
      yearRunOk_natDigits d.year h1 h2])]
  rw [strToNat_natDigits, strToNat_pad2 d.day (by omega),
    strToNat_pad2 d.month (by omega)]
  exact mkValidDate_eta d ⟨h1, h2, h3, h4, h5, h6⟩

theorem strptimeYmd_euDash (d : DateT) (hv : validDate d) :
    strptimeYmd (euDashString d).data = none := by
  obtain ⟨h1, h2, h3, h4, h5, h6⟩ := hv
  have hd31 : d.day ≤ 31 := by
    have := daysInMonth_le d.year d.month
    omega
  have hsplit := splitDateParts_runs '-' (pad2 d.day) (pad2 d.month)
    (natDigits d.year) (by decide) (pad2_all_digit d.day (by omega))
    (pad2_all_digit d.month (by omega)) (natDigits_all_digit d.year)
  show strptimeYmd
    (pad2 d.day ++ '-' :: (pad2 d.month ++ '-' :: natDigits d.year)) = none
  simp only [strptimeYmd, hsplit]
  simp [yearRunOk_pad2 d.day (by omega)]

theorem strptimeMdY_euDash (d : DateT) (hd : d.day ≤ 99) :
    strptimeMdY (euDashString d).data = none := by
  have hsplit := splitDateParts_wrong_sep '/' (pad2 d.day) '-'
    (pad2 d.month ++ '-' :: natDigits d.year) (pad2_all_digit d.day hd)
    (by decide) (by decide)
  show strptimeMdY
    (pad2 d.day ++ '-' :: (pad2 d.month ++ '-' :: natDigits d.year)) = none
  simp only [strptimeMdY, hsplit]

theorem strptimeDmY_euDash (d : DateT) (hd : d.day ≤ 99) :
    strptimeDmY (euDashString d).data = none := by
  have hsplit := splitDateParts_wrong_sep '/' (pad2 d.day) '-'
    (pad2 d.month ++ '-' :: natDigits d.year) (pad2_all_digit d.day hd)
    (by decide) (by decide)
  show strptimeDmY
    (pad2 d.day ++ '-' :: (pad2 d.month ++ '-' :: natDigits d.year)) = none
  simp only [strptimeDmY, hsplit]

theorem strptimeDmYdash_euDash (d : DateT) (hv : validDate d) :
    strptimeDmYdash (euDashString d).data = some d := by
  obtain ⟨h1, h2, h3, h4, h5, h6⟩ := hv
  have hd31 : d.day ≤ 31 := by
    have := daysInMonth_le d.year d.month
    omega
  have hsplit := splitDateParts_runs '-' (pad2 d.day) (pad2 d.month)
    (natDigits d.year) (by decide) (pad2_all_digit d.day (by omega))
    (pad2_all_digit d.month (by omega)) (natDigits_all_digit d.year)
  show strptimeDmYdash
    (pad2 d.day ++ '-' :: (pad2 d.month ++ '-' :: natDigits d.year)) = some d
  simp only [strptimeDmYdash, hsplit]
  rw [if_pos (by
    simp [dayRunOk_pad2 d.day h5 hd31, monthRunOk_pad2 d.month h3 h4,
      yearRunOk_natDigits d.year h1 h2])]
  rw [strToNat_natDigits, strToNat_pad2 d.day (by omega),
    strToNat_pad2 d.month (by omega)]
  exact mkValidDate_eta d ⟨h1, h2, h3, h4, h5, h6⟩

theorem tryDateFormats_iso (d : DateT) (hv : validDate d) :
    tryDateFormats (isoString d).data = some d := by
  simp only [tryDateFormats, strptimeYmd_iso d hv]

theorem tryDateFormats_us (d : DateT) (hv : validDate d) :
    tryDateFormats (usString d).data = some d := by
  simp only [tryDateFormats, strptimeYmd_us d (by
    obtain ⟨h1, h2, h3, h4, h5, h6⟩ := hv
    omega), strptimeMdY_us d hv]

theorem tryDateFormats_euDash (d : DateT) (hv : validDate d) :
    tryDateFormats (euDashString d).data = some d := by
  have hd99 : d.day ≤ 99 := by
    obtain ⟨h1, h2, h3, h4, h5, h6⟩ := hv
    have := daysInMonth_le d.year d.month
    omega
  simp only [tryDateFormats, strptimeYmd_euDash d hv,
    strptimeMdY_euDash d hd99, strptimeDmY_euDash d hd99,
    strptimeDmYdash_euDash d hv]

theorem tryDateFormats_euSlash (d : DateT) (hv : validDate d) :
    tryDateFormats (euSlashString d).data =
      (if d.day ≤ 12 then some ⟨d.year, d.day, d.month⟩ else some d) := by
  have hd99 : d.day ≤ 99 := by
    obtain ⟨h1, h2, h3, h4, h5, h6⟩ := hv
    have := daysInMonth_le d.year d.month
    omega
  by_cases hle : d.day ≤ 12
  · simp only [tryDateFormats, strptimeYmd_euSlash d hd99,
      strptimeMdY_euSlash_small d hv hle, if_pos hle]
  · have hm99 : d.month ≤ 99 := by
      obtain ⟨h1, h2, h3, h4, h5, h6⟩ := hv
      omega
    simp only [tryDateFormats, strptimeYmd_euSlash d hd99,
      strptimeMdY_euSlash_big d (by omega) hd99 hm99,
      strptimeDmY_euSlash d hv, if_neg hle]

theorem asOfLit_cons_none (c : Char) (t : List Char) (h1 : c ≠ 'a')
    (h2 : c ≠ 'A') : asOfLit (c :: t) = none := by
  rcases t with _ | ⟨c2, _ | ⟨c3, _ | ⟨c4, _ | ⟨c5, _ | ⟨c6, r⟩⟩⟩⟩⟩ <;>
    first
      | rfl
      | simp [asOfLit, h1, h2]

theorem asOfSearch_no_a (cs : List Char)
    (h : ∀ x ∈ cs, x ≠ 'a' ∧ x ≠ 'A') : asOfSearch cs = none := by
  induction cs with
  | nil => rfl
  | cons c rest ih =>
    have hc := h c (List.mem_cons_self c rest)
    simp only [asOfSearch, asOfLit_cons_none c rest hc.1 hc.2]
    exact ih (fun x hx => h x (List.mem_cons_of_mem c hx))

theorem asOfSearch_append (p q : List Char)
    (h : ∀ x ∈ p, x ≠ 'a' ∧ x ≠ 'A') :
    asOfSearch (p ++ q) = asOfSearch q := by
  induction p with
  | nil => rfl
  | cons c rest ih =>
    have hc := h c (List.mem_cons_self c rest)
    simp
    simp only [asOfSearch]
    rw [asOfLit_cons_none c (rest ++ q) hc.1 hc.2]
    exact ih (fun x hx => h x (List.mem_cons_of_mem c hx))

theorem mem_run_sep (sep : Char) (a b c : List Char)
    (ha : ∀ x ∈ a, x.isDigit = true) (hb : ∀ x ∈ b, x.isDigit = true)
    (hc : ∀ x ∈ c, x.isDigit = true) :
    ∀ x ∈ a ++ sep :: (b ++ sep :: c), x.isDigit = true ∨ x = sep := by
  intro x hx
  rcases List.mem_append.mp hx with h | h
  · exact Or.inl (ha x h)
  · rcases List.mem_cons.mp h with rfl | h
    · exact Or.inr rfl
    · rcases List.mem_append.mp h with h | h
      · exact Or.inl (hb x h)
      · rcases List.mem_cons.mp h with rfl | h
        · exact Or.inr rfl
        · exact Or.inl (hc x h)

theorem no_a_of_kind (sep : Char) (hs1 : sep ≠ 'a') (hs2 : sep ≠ 'A')
    (x : Char) (h : x.isDigit = true ∨ x = sep) : x ≠ 'a' ∧ x ≠ 'A' := by
  rcases h with h | rfl
  · exact ⟨char_ne_of_digit x 'a' h (by decide),
      char_ne_of_digit x 'A' h (by decide)⟩
  · exact ⟨hs1, hs2⟩

theorem usString_kinds (d : DateT) (hm : d.month ≤ 99) (hd : d.day ≤ 99) :
    ∀ x ∈ (usString d).data, x.isDigit = true ∨ x = '/' :=
  mem_run_sep '/' (pad2 d.month) (pad2 d.day) (natDigits d.year)
    (pad2_all_digit d.month hm) (pad2_all_digit d.day hd)
    (natDigits_all_digit d.year)

theorem takeDigits_exact (n : Nat) (x r : List Char) (hlen : x.length = n)
    (hx : ∀ c ∈ x, c.isDigit = true) : takeDigits n (x ++ r) = some (x, r) := by
  have ht : (x ++ r).take n = x := by
    rw [← hlen]
    exact List.take_left x r
  have hd : (x ++ r).drop n = r := by
    rw [← hlen]
    exact List.drop_left x r
  simp only [takeDigits, ht, hd]
  rw [if_pos ⟨hlen, List.all_eq_true.mpr hx⟩]

theorem takeDigits_full (n : Nat) (x : List Char) (hlen : x.length = n)
    (hx : ∀ c ∈ x, c.isDigit = true) : takeDigits n x = some (x, []) := by
  have ht : x.take n = x := List.take_of_length_le (by omega)
  have hd : x.drop n = [] := List.drop_of_length_le (by omega)
  simp only [takeDigits, ht, hd]
  rw [if_pos ⟨hlen, List.all_eq_true.mpr hx⟩]

theorem dateAlt1_us (d : DateT) (hv : validDate d) :
    dateAlt1 (usString d).data = some ((usString d).data, []) := by
  obtain ⟨h1, h2, h3, h4, h5, h6⟩ := hv
  have hd31 : d.day ≤ 31 := by
    have := daysInMonth_le d.year d.month
    omega
  have t1 := takeDigits_exact 2 (pad2 d.month)
    (('/' :: (pad2 d.day ++ '/' :: natDigits d.year)))
    (pad2_length d.month (by omega)) (pad2_all_digit d.month (by omega))
  have t2 := takeDigits_exact 2 (pad2 d.day) ('/' :: natDigits d.year)
    (pad2_length d.day (by omega)) (pad2_all_digit d.day (by omega))
  have t3 := takeDigits_full 4 (natDigits d.year)
    (natDigits_length_four d.year h1 h2) (natDigits_all_digit d.year)
  show dateAlt1
    (pad2 d.month ++ '/' :: (pad2 d.day ++ '/' :: natDigits d.year)) =
      some (pad2 d.month ++ '/' :: (pad2 d.day ++ '/' :: natDigits d.year), [])
  simp only [dateAlt1, List.findSome?_cons, t1, t2, t3, Option.some_bind,
    Option.map_some, Option.map_some']
  simp

theorem parse_date_iso (d : DateT) (hv : validDate d) :
    parse_date (isoString d) = some d := by
  obtain ⟨h1, h2, h3, h4, h5, h6⟩ := hv
  have hd31 : d.day ≤ 31 := by
    have := daysInMonth_le d.year d.month
    omega
  have hkind := mem_run_sep '-' (natDigits d.year) (pad2 d.month)
    (pad2 d.day) (natDigits_all_digit d.year)
    (pad2_all_digit d.month (by omega)) (pad2_all_digit d.day (by omega))
  have hasof : asOfSearch (isoString d).data = none :=
    asOfSearch_no_a _ (fun x hx =>
      no_a_of_kind '-' (by decide) (by decide) x (hkind x hx))
  simp only [parse_date, hasof,
    tryDateFormats_iso d ⟨h1, h2, h3, h4, h5, h6⟩]

theorem parse_date_us (d : DateT) (hv : validDate d) :
    parse_date (usString d) = some d := by
  obtain ⟨h1, h2, h3, h4, h5, h6⟩ := hv
  have hd31 : d.day ≤ 31 := by
    have := daysInMonth_le d.year d.month
    omega
  have hkind := usString_kinds d (by omega) (by omega)
  have hasof : asOfSearch (usString d).data = none :=
    asOfSearch_no_a _ (fun x hx =>
      no_a_of_kind '/' (by decide) (by decide) x (hkind x hx))
  simp only [parse_date, hasof,
    tryDateFormats_us d ⟨h1, h2, h3, h4, h5, h6⟩]

theorem parse_date_euDash (d : DateT) (hv : validDate d) :
    parse_date (euDashString d) = some d := by
  obtain ⟨h1, h2, h3, h4, h5, h6⟩ := hv
  have hd31 : d.day ≤ 31 := by
    have := daysInMonth_le d.year d.month
    omega
  have hkind := mem_run_sep '-' (pad2 d.day) (pad2 d.month)
    (natDigits d.year) (pad2_all_digit d.day (by omega))
    (pad2_all_digit d.month (by omega)) (natDigits_all_digit d.year)
  have hasof : asOfSearch (euDashString d).data = none :=
    asOfSearch_no_a _ (fun x hx =>
      no_a_of_kind '-' (by decide) (by decide) x (hkind x hx))
  simp only [parse_date, hasof,
    tryDateFormats_euDash d ⟨h1, h2, h3, h4, h5, h6⟩]

theorem parse_date_euSlash (d : DateT) (hv : validDate d) :
    parse_date (euSlashString d) =
      (if d.day ≤ 12 then some ⟨d.year, d.day, d.month⟩ else some d) := by
  obtain ⟨h1, h2, h3, h4, h5, h6⟩ := hv
  have hd31 : d.day ≤ 31 := by
    have := daysInMonth_le d.year d.month
    omega
  have hkind := mem_run_sep '/' (pad2 d.day) (pad2 d.month)
    (natDigits d.year) (pad2_all_digit d.day (by omega))
    (pad2_all_digit d.month (by omega)) (natDigits_all_digit d.year)
  have hasof : asOfSearch (euSlashString d).data = none :=
    asOfSearch_no_a _ (fun x hx =>
      no_a_of_kind '/' (by decide) (by decide) x (hkind x hx))
  have htry := tryDateFormats_euSlash d ⟨h1, h2, h3, h4, h5, h6⟩
  by_cases hle : d.day ≤ 12
  · rw [if_pos hle] at htry
    simp only [parse_date, hasof, htry, if_pos hle]
  · rw [if_neg hle] at htry
    simp only [parse_date, hasof, htry, if_neg hle]

theorem asOfSearch_us_pair (d1 d2 : DateT) (hm1 : d1.month ≤ 99)
    (hd1 : d1.day ≤ 99) (hv2 : validDate d2) :
    asOfSearch (usString d1 ++ " as of " ++ usString d2).data =
      some (usString d2).data := by
  have hdata : (usString d1 ++ " as of " ++ usString d2).data =
      ((usString d1).data ++ [' ']) ++
        ('a' :: 's' :: ' ' :: 'o' :: 'f' :: ' ' :: (usString d2).data) := by
    rw [String.data_append, String.data_append, List.append_assoc,
      List.append_assoc]
    rfl
  have hp : ∀ x ∈ (usString d1).data ++ [' '], x ≠ 'a' ∧ x ≠ 'A' := by
    intro x hx
    rcases List.mem_append.mp hx with h | h
    · exact no_a_of_kind '/' (by decide) (by decide) x
        (usString_kinds d1 hm1 hd1 x h)
    · rw [List.mem_singleton] at h
      subst h
      exact ⟨by decide, by decide⟩
  rw [hdata, asOfSearch_append ((usString d1).data ++ [' ']) _ hp]
  have hlit : asOfLit
      ('a' :: 's' :: ' ' :: 'o' :: 'f' :: ' ' :: (usString d2).data) =
      some (usString d2).data := by
    simp [asOfLit]
  simp only [asOfSearch, hlit, dateAltAt, dateAlt1_us d2 hv2]

theorem parse_date_as_of_us (d1 d2 : DateT) (hm1 : d1.month ≤ 99)
    (hd1 : d1.day ≤ 99) (hv2 : validDate d2) :
    parse_date (usString d1 ++ " as of " ++ usString d2) = some d2 := by
  simp only [parse_date, asOfSearch_us_pair d1 d2 hm1 hd1 hv2,
    tryDateFormats_us d2 hv2]

/-- C5 (amended): `parse_date` (total by construction) round-trips padded
ISO, US and European dashed renderings of every valid date, and an
`as of` date wins over the primary one; but a European slash rendering is
captured by the US format first whenever its day fits a month number, so
it round-trips only when day > 12 (otherwise day and month come back
transposed). -/
theorem c5_parse_date_formats (d d1 d2 : DateT) (hv : validDate d)
    (hm1 : d1.month ≤ 99) (hd1 : d1.day ≤ 99) (hv2 : validDate d2) :
    parse_date (isoString d) = some d ∧
    parse_date (usString d) = some d ∧
    parse_date (euDashString d) = some d ∧
    parse_date (euSlashString d) =
      (if d.day ≤ 12 then some ⟨d.year, d.day, d.month⟩ else some d) ∧
    parse_date (usString d1 ++ " as of " ++ usString d2) = some d2 :=
  ⟨parse_date_iso d hv, parse_date_us d hv, parse_date_euDash d hv,
    parse_date_euSlash d hv, parse_date_as_of_us d1 d2 hm1 hd1 hv2⟩

/-- C5 counterexample: the European rendering of 5 April 2024 parses as
4 May 2024 (the US format wins), so valid EU slash dates do not all
round-trip. -/
theorem c5_eu_slash_counterexample :
    euSlashString ⟨2024, 4, 5⟩ = "05/04/2024" ∧
    parse_date "05/04/2024" = some ⟨2024, 5, 4⟩ ∧
    some (⟨2024, 5, 4⟩ : DateT) ≠ some (⟨2024, 4, 5⟩ : DateT) := by
  decide

/-- C5 witness: a concrete date with day 19 in every format, and a
concrete `as of` pair. -/
theorem c5_parse_date_formats_witness :
    parse_date (isoString ⟨2024, 7, 19⟩) = some ⟨2024, 7, 19⟩ ∧
    parse_date (usString ⟨2024, 7, 19⟩) = some ⟨2024, 7, 19⟩ ∧
    parse_date (euDashString ⟨2024, 7, 19⟩) = some ⟨2024, 7, 19⟩ ∧
    parse_date (euSlashString ⟨2024, 7, 19⟩) =
      (if (⟨2024, 7, 19⟩ : DateT).day ≤ 12 then
        some ⟨(⟨2024, 7, 19⟩ : DateT).year, (⟨2024, 7, 19⟩ : DateT).day,
          (⟨2024, 7, 19⟩ : DateT).month⟩
       else some ⟨2024, 7, 19⟩) ∧
    parse_date (usString ⟨2024, 7, 19⟩ ++ " as of " ++
        usString ⟨2023, 1, 2⟩) =
      some ⟨2023, 1, 2⟩ :=
  c5_parse_date_formats ⟨2024, 7, 19⟩ ⟨2024, 7, 19⟩ ⟨2023, 1, 2⟩
    (by unfold validDate; decide) (by decide) (by decide)
    (by unfold validDate; decide)
